import Mathlib

/-!
Endgame Gear battery monitor: device protocol and device arbitration

A shallow embedding of `include/endgame_gear_device.h` (class `EndgameGearDevice`)
and `include/device_manager.h` (class `DeviceManager`).

* Machine integers are naturals (`BYTE` values are reduced `% 256` where they
  enter a buffer); `int` is `Int`.
* The HID transport (`hid_device.h`) and the concrete variants
  (`op1w_mouse.h`, `xm2w_mouse.h`, `op1w_dongle.h`) are not part of the
  sources at hand.  The transport is a parameter (`Transport`), the static data
  of a variant is a parameter (`Variant`).
* Every method returns its C++ return value, the object after the call, and
  the list of transport calls (and sleeps) it made, in order.
* Logging has no effect on the state and is left out.
-/

namespace EndgameGear

/-! ## Shared types -/

/-- The `EndgameGearDevice::BatteryStatus` struct, with its default member values. -/
structure BatteryStatus where
  percentage : Int := -1
  is_charging : Bool := false
  is_wireless : Bool := false
deriving DecidableEq, Repr

/-- The value of `return {};`: the failure sentinel. -/
def BatteryStatus.sentinel : BatteryStatus := {}

/-- One descriptor returned by `HIDDevice::EnumerateDevices`; only the fields the
sources read (`path`, `usage_page`, `usage`).  A path is an opaque identifier. -/
structure DeviceInfo where
  path : Nat
  usage_page : Nat
  usage : Nat
deriving DecidableEq, Repr

/-- Modelled from the spec: the transport collaborator behind `HIDDevice`
(`hid_device.h` is missing).  `enumerate vid pid` lists the descriptors,
`openOk path` says whether opening `path` succeeds, `sendFeatureReport h n buf size`
is the result of the `n`-th send (counted from 0 within one `ReadBattery` call) on
handle `h`, and `getFeatureReport h n report_id size` is the result of the `n`-th
read together with the bytes the device put into the buffer. -/
structure Transport where
  enumerate : Nat → Nat → List DeviceInfo
  openOk : Nat → Bool
  sendFeatureReport : Nat → Nat → List Nat → Nat → Bool
  getFeatureReport : Nat → Nat → Nat → Nat → Bool × List Nat

/-- What a method did to the outside world, in order. -/
inductive Event where
  | EnumerateDevices (vid pid : Nat)
  | Open (path : Nat) (ok : Bool)
  | Close
  | SendFeatureReport (buffer : List Nat) (size : Nat) (ok : Bool)
  | GetFeatureReport (report_id size : Nat) (ok : Bool)
  | sleep_for (ms : Nat)
deriving DecidableEq, Repr

/-- A send of a feature report. -/
def Event.isSend : Event → Bool
  | .SendFeatureReport _ _ _ => true
  | _ => false

/-- A read of a feature report. -/
def Event.isGet : Event → Bool
  | .GetFeatureReport _ _ _ => true
  | _ => false

/-- Any call into the transport (everything except a sleep). -/
def Event.isTransport : Event → Bool
  | .sleep_for _ => false
  | _ => true

/-- A send or a read that reported failure. -/
def Event.isFailedExchange : Event → Bool
  | .SendFeatureReport _ _ ok => !ok
  | .GetFeatureReport _ _ ok => !ok
  | _ => false

/-! ## HIDDevice -/

/-- Modelled from the spec: the `HIDDevice` member (`hid_device.h` is missing):
an exclusively owned handle, absent when closed. -/
structure HIDDevice where
  handle : Option Nat := none
deriving DecidableEq, Repr

namespace HIDDevice

/-- Modelled from the spec: `is_open() -> bool` of the missing `hid_device.h`. -/
def IsOpen (d : HIDDevice) : Bool := d.handle.isSome

/-- Modelled from the spec: `close()` of the missing `hid_device.h`. -/
def Close (_ : HIDDevice) : HIDDevice := { handle := none }

/-- Modelled from the spec: `enumerate(vendor_id, product_id)` of the missing
`hid_device.h` (the static `EnumerateDevices`): the descriptors, and the record
of the call. -/
def EnumerateDevices (t : Transport) (vid pid : Nat) : List DeviceInfo × List Event :=
  (t.enumerate vid pid, [Event.EnumerateDevices vid pid])

/-- Modelled from the spec: `open(path) -> bool` of the missing `hid_device.h`:
the result, the device afterwards, and the record of the call.  A successful
call acquires the handle on `path`.  The specification gives a failed call no
effect (its section 5 has the handle acquired by `FindAndConnect` and released by
`Disconnect` and by destruction only), so a failed call leaves the handle as it
was. -/
def Open (t : Transport) (d : HIDDevice) (path : Nat) : Bool × HIDDevice × List Event :=
  if t.openOk path then (true, { handle := some path }, [Event.Open path true])
  else (false, d, [Event.Open path false])

/-- Modelled from the spec: `send_feature_report(buffer, size) -> bool` of the
missing `hid_device.h`: the result, and the record of the call with the buffer
and size it was given. -/
def SendFeatureReport (t : Transport) (d : HIDDevice) (n : Nat) (buffer : List Nat)
    (size : Nat) : Bool × List Event :=
  let ok :=
    match d.handle with
    | none => false
    | some h => t.sendFeatureReport h n buffer size
  (ok, [Event.SendFeatureReport buffer size ok])

/-- Modelled from the spec: `get_feature_report(report_id, buffer, size) -> bool`
of the missing `hid_device.h`: the result with the bytes written, and the record
of the call with the report id and size it was given. -/
def GetFeatureReport (t : Transport) (d : HIDDevice) (n : Nat) (report_id size : Nat) :
    (Bool × List Nat) × List Event :=
  let r :=
    match d.handle with
    | none => (false, [])
    | some h => t.getFeatureReport h n report_id size
  (r, [Event.GetFeatureReport report_id size r.1])

end HIDDevice

/-! ## EndgameGearDevice -/

/-- The pure virtual members a concrete variant overrides (the variant headers
are missing, so the data is a parameter). -/
structure Variant where
  GetDeviceName : String
  GetDeviceType : String
  GetPriority : Int
  GetSupportedPIDs : List Nat
  IsWiredPID : Nat → Bool

/-- An `EndgameGearDevice` object: its variant and its three data members. -/
structure EndgameGearDevice where
  variant : Variant
  device : HIDDevice
  current_pid : Nat
  last_status : BatteryStatus

/-- Return value, object after the call, transport calls made. -/
structure Outcome (α : Type) where
  ret : α
  dev : EndgameGearDevice
  trace : List Event

namespace EndgameGearDevice

def VID : Nat := 0x3367
def USAGE_PAGE : Nat := 0xFF01
def USAGE : Nat := 0x0002
def REPORT_ID : Nat := 0xA1
def BATTERY_CMD : Nat := 0xB4
def REPORT_SIZE : Nat := 64
def NUM_ATTEMPTS : Nat := 2

/-- The protected constructor: `current_pid(0), last_status{}`, handle closed. -/
def new (v : Variant) : EndgameGearDevice :=
  { variant := v, device := {}, current_pid := 0, last_status := {} }

/-- The body of `Disconnect`. -/
def Disconnect (d : EndgameGearDevice) : EndgameGearDevice :=
  { d with device := d.device.Close, current_pid := 0 }

/-- The body of `IsConnected`. -/
def IsConnected (d : EndgameGearDevice) : Bool := d.device.IsOpen

/-- The loop of `FindAndConnectWithPID` over the enumerated descriptors.  The
`&&` is short-circuit: `Open` is only reached for a matching usage page and usage. -/
def scanDescriptors (t : Transport) (pid : Nat) :
    List DeviceInfo → EndgameGearDevice → Outcome Bool
  | [], d => ⟨false, d, []⟩
  | info :: rest, d =>
    if info.usage_page = USAGE_PAGE ∧ info.usage = USAGE then
      let o := d.device.Open t info.path
      if o.1 then
        ⟨true, { d with device := o.2.1, current_pid := pid }, o.2.2⟩
      else
        let r := scanDescriptors t pid rest { d with device := o.2.1 }
        ⟨r.ret, r.dev, o.2.2 ++ r.trace⟩
    else scanDescriptors t pid rest d

/-- The body of `FindAndConnectWithPID`. -/
def FindAndConnectWithPID (t : Transport) (d : EndgameGearDevice) (pid : Nat) : Outcome Bool :=
  let devices := HIDDevice.EnumerateDevices t VID pid
  let r := scanDescriptors t pid devices.1 d
  ⟨r.ret, r.dev, devices.2 ++ r.trace⟩

/-- The loop of `FindAndConnect` over the supported product ids. -/
def tryPIDs (t : Transport) : List Nat → EndgameGearDevice → Outcome Bool
  | [], d => ⟨false, d, []⟩
  | pid :: rest, d =>
    let r := d.FindAndConnectWithPID t pid
    if r.ret then ⟨true, r.dev, r.trace⟩
    else
      let r2 := tryPIDs t rest r.dev
      ⟨r2.ret, r2.dev, r.trace ++ r2.trace⟩

/-- The body of `FindAndConnect`. -/
def FindAndConnect (t : Transport) (d : EndgameGearDevice) : Outcome Bool :=
  tryPIDs t d.variant.GetSupportedPIDs d

/-- The array `BYTE write_buffer[64] = {0}` with bytes 0 and 1 set. -/
def write_buffer (report_id command : Nat) : List Nat :=
  ((List.replicate 64 0).set 0 (report_id % 256)).set 1 (command % 256)

/-- The body of `SendBatteryCommand`; `n` counts the sends of the current call.
The result, and the record of the transport call made. -/
def SendBatteryCommand (t : Transport) (d : EndgameGearDevice) (n : Nat)
    (report_id command size : Nat) : Bool × List Event :=
  d.device.SendFeatureReport t n (write_buffer report_id command) size

/-- The array `BYTE read_buffer[REPORT_SIZE] = {0}` after the transport wrote
`data` into it: 64 bytes, each below 256. -/
def read_buffer (data : List Nat) : List Nat :=
  (List.range REPORT_SIZE).map (fun i => (data.getD i 0) % 256)

/-- The body of `ParseBatteryResponse`; the argument is a `BYTE`. -/
def ParseBatteryResponse (d : EndgameGearDevice) (battery_value : Nat) : BatteryStatus :=
  { percentage := min ((battery_value % 256 : Nat) : Int) 100,
    is_wireless := !d.variant.IsWiredPID d.current_pid,
    is_charging := d.variant.IsWiredPID d.current_pid }

/-- The `for (int attempt = 0; attempt < NUM_ATTEMPTS; ++attempt)` loop of
`ReadBattery`; `remaining` is `NUM_ATTEMPTS - attempt`.  Falling out of the loop
reaches the final `return {};`. -/
def attemptLoop (t : Transport) (d : EndgameGearDevice) :
    (remaining : Nat) → (attempt : Nat) → Outcome BatteryStatus
  | 0, _ => ⟨{}, d, []⟩
  | remaining + 1, attempt =>
    let sent := d.SendBatteryCommand t attempt REPORT_ID BATTERY_CMD REPORT_SIZE
    if !sent.1 then ⟨{}, d, sent.2⟩
    else
      let got := d.device.GetFeatureReport t attempt REPORT_ID REPORT_SIZE
      let buf := read_buffer got.1.2
      if !got.1.1 then ⟨{}, d, sent.2 ++ [Event.sleep_for 350] ++ got.2⟩
      else if attempt = 0 then
        let r := attemptLoop t d remaining (attempt + 1)
        ⟨r.ret, r.dev, sent.2 ++ [Event.sleep_for 350] ++ got.2 ++ [Event.sleep_for 100] ++ r.trace⟩
      else if buf.getD 1 0 ≠ 0x01 ∧ buf.getD 1 0 ≠ 0x08 then
        ⟨{}, d, sent.2 ++ [Event.sleep_for 350] ++ got.2⟩
      else
        let status := d.ParseBatteryResponse (buf.getD 16 0)
        ⟨status, { d with last_status := status }, sent.2 ++ [Event.sleep_for 350] ++ got.2⟩

/-- The body of `ReadBattery`. -/
def ReadBattery (t : Transport) (d : EndgameGearDevice) : Outcome BatteryStatus :=
  if !d.IsConnected then ⟨{}, d, []⟩
  else attemptLoop t d NUM_ATTEMPTS 0

/-- The body of `GetConnectionMode`. -/
def GetConnectionMode (d : EndgameGearDevice) : String :=
  if d.current_pid = 0 then "Unknown"
  else if d.variant.IsWiredPID d.current_pid then "Wired (Charging)" else "Wireless"

/-- The body of `GetCurrentPID`. -/
def GetCurrentPID (d : EndgameGearDevice) : Nat := d.current_pid

end EndgameGearDevice

/-! ## DeviceManager -/

/-- The `EndgameGearDevice` methods that `DeviceManager` calls and that touch the
transport. -/
inductive Method where
  | FindAndConnect
  | Disconnect
  | ReadBattery
deriving DecidableEq, Repr

/-- One call `devices[index]->method()` made by `DeviceManager`, with the
transport calls made inside it. -/
structure DeviceCall where
  index : Nat
  method : Method
  trace : List Event
deriving DecidableEq, Repr

/-- A `DeviceManager` object.  `devices` is the vector of owned devices;
`active_device` points into that vector and is modelled by the position it
points to (`none` is `nullptr`). -/
structure DeviceManager where
  devices : List EndgameGearDevice
  active_device : Option Nat

/-- Return value, manager after the call, device calls made. -/
structure ManagerOutcome (α : Type) where
  ret : α
  mgr : DeviceManager
  calls : List DeviceCall

/-- State of a loop over `devices`: the position that connected (if any), the
vector after the loop, the device calls made. -/
structure LoopResult where
  found : Option Nat
  devices : List EndgameGearDevice
  calls : List DeviceCall

/-- Apply `f` to the element at position `n` (a call through a pointer into the
vector). -/
def modifyAt {α : Type} (f : α → α) : List α → Nat → List α
  | [], _ => []
  | x :: xs, 0 => f x :: xs
  | x :: xs, n + 1 => x :: modifyAt f xs n

namespace DeviceManager

/-- The constructor: the variants are pushed and the vector is sorted by
`GetPriority()`.  The three concrete variants are missing from the sources,
so the pushed variants are a parameter. -/
def new (variants : List Variant) : DeviceManager :=
  { devices := (variants.map EndgameGearDevice.new).insertionSort
      (fun a b => a.variant.GetPriority ≤ b.variant.GetPriority),
    active_device := none }

/-- The loop of `FindAndConnect`; `i` is the position of the head of the list. -/
def connectLoop (t : Transport) : List EndgameGearDevice → Nat → LoopResult
  | [], _ => ⟨none, [], []⟩
  | d :: rest, i =>
    let o := d.FindAndConnect t
    if o.ret then ⟨some i, o.dev :: rest, [⟨i, Method.FindAndConnect, o.trace⟩]⟩
    else
      let r := connectLoop t rest (i + 1)
      ⟨r.found, o.dev :: r.devices, ⟨i, Method.FindAndConnect, o.trace⟩ :: r.calls⟩

/-- The body of `FindAndConnect`. -/
def FindAndConnect (t : Transport) (m : DeviceManager) : ManagerOutcome Bool :=
  let r := connectLoop t m.devices 0
  match r.found with
  | some i => ⟨true, { devices := r.devices, active_device := some i }, r.calls⟩
  | none => ⟨false, { devices := r.devices, active_device := m.active_device }, r.calls⟩

/-- The body of `Disconnect`. -/
def Disconnect (m : DeviceManager) : ManagerOutcome Unit :=
  match m.active_device with
  | some a =>
    ⟨(), { devices := modifyAt EndgameGearDevice.Disconnect m.devices a, active_device := none },
      [⟨a, Method.Disconnect, [Event.Close]⟩]⟩
  | none => ⟨(), m, []⟩

/-- The body of `IsConnected`. -/
def IsConnected (m : DeviceManager) : Bool :=
  match m.active_device with
  | some a =>
    match m.devices[a]? with
    | some d => d.IsConnected
    | none => false
  | none => false

/-- The body of `ReadBattery`. -/
def ReadBattery (t : Transport) (m : DeviceManager) : ManagerOutcome BatteryStatus :=
  match m.active_device with
  | none => ⟨{}, m, []⟩
  | some a =>
    match m.devices[a]? with
    | none => ⟨{}, m, []⟩
    | some d =>
      let o := d.ReadBattery t
      ⟨o.ret, { m with devices := modifyAt (fun _ => o.dev) m.devices a },
        [⟨a, Method.ReadBattery, o.trace⟩]⟩

/-- The body of `GetDeviceName`. -/
def GetDeviceName (m : DeviceManager) : String :=
  match m.active_device with
  | some a =>
    match m.devices[a]? with
    | some d => d.variant.GetDeviceName
    | none => "Unknown"
  | none => "Unknown"

/-- The body of `GetConnectionMode`. -/
def GetConnectionMode (m : DeviceManager) : String :=
  match m.active_device with
  | some a =>
    match m.devices[a]? with
    | some d => d.GetConnectionMode
    | none => "Unknown"
  | none => "Unknown"

/-- The loop of `ShouldSwitchDevice`; `active` is the position `active_device`
points to, `i` is the position of the head of the list. -/
def switchLoop (t : Transport) (active : Nat) (current_priority : Int) :
    List EndgameGearDevice → Nat → LoopResult
  | [], _ => ⟨none, [], []⟩
  | d :: rest, i =>
    if i = active then
      let r := switchLoop t active current_priority rest (i + 1)
      ⟨r.found, d :: r.devices, r.calls⟩
    else if d.variant.GetPriority < current_priority then
      let o := d.FindAndConnect t
      if o.ret then ⟨some i, o.dev :: rest, [⟨i, Method.FindAndConnect, o.trace⟩]⟩
      else
        let r := switchLoop t active current_priority rest (i + 1)
        ⟨r.found, o.dev :: r.devices, ⟨i, Method.FindAndConnect, o.trace⟩ :: r.calls⟩
    else
      let r := switchLoop t active current_priority rest (i + 1)
      ⟨r.found, d :: r.devices, r.calls⟩

/-- The body of `ShouldSwitchDevice`. -/
def ShouldSwitchDevice (t : Transport) (m : DeviceManager) : ManagerOutcome Bool :=
  match m.active_device with
  | none => ⟨false, m, []⟩
  | some a =>
    match m.devices[a]? with
    | none => ⟨false, m, []⟩
    | some v =>
      let r := switchLoop t a v.variant.GetPriority m.devices 0
      match r.found with
      | some i =>
        ⟨true, { devices := modifyAt EndgameGearDevice.Disconnect r.devices a,
                 active_device := some i },
          r.calls ++ [⟨a, Method.Disconnect, [Event.Close]⟩]⟩
      | none => ⟨false, { devices := r.devices, active_device := some a }, r.calls⟩

end DeviceManager

/-- The common shape of `connectLoop` and `switchLoop`: the devices that satisfy
`cand` (given their position) are asked to connect, in order, until one succeeds.
It is not part of the sources; both loops are shown equal to an instance of it. -/
def scanLoop (t : Transport) (cand : Nat → EndgameGearDevice → Bool) :
    List EndgameGearDevice → Nat → LoopResult
  | [], _ => ⟨none, [], []⟩
  | d :: rest, i =>
    if cand i d then
      let o := d.FindAndConnect t
      if o.ret then ⟨some i, o.dev :: rest, [⟨i, Method.FindAndConnect, o.trace⟩]⟩
      else
        let r := scanLoop t cand rest (i + 1)
        ⟨r.found, o.dev :: r.devices, ⟨i, Method.FindAndConnect, o.trace⟩ :: r.calls⟩
    else
      let r := scanLoop t cand rest (i + 1)
      ⟨r.found, d :: r.devices, r.calls⟩

/-- The candidates of `ShouldSwitchDevice`: not the active position, and a
priority value strictly below the active one. -/
def switchCandidate (active : Nat) (current_priority : Int) (i : Nat)
    (d : EndgameGearDevice) : Bool :=
  decide (i ≠ active) && decide (d.variant.GetPriority < current_priority)

/-- A call a client can make on a `DeviceManager`, with the transport behaviour
during that call. -/
inductive Action where
  | FindAndConnect (t : Transport)
  | Disconnect
  | ShouldSwitchDevice (t : Transport)
  | ReadBattery (t : Transport)

namespace DeviceManager

/-- The manager after one client call. -/
def step (m : DeviceManager) : Action → DeviceManager
  | Action.FindAndConnect t => (m.FindAndConnect t).mgr
  | Action.Disconnect => m.Disconnect.mgr
  | Action.ShouldSwitchDevice t => (m.ShouldSwitchDevice t).mgr
  | Action.ReadBattery t => (m.ReadBattery t).mgr

/-- The manager after a sequence of client calls. -/
def run (m : DeviceManager) : List Action → DeviceManager
  | [] => m
  | a :: rest => run (m.step a) rest

/-- Along the sequence, `FindAndConnect` is only called while there is no
active device (the entry path). -/
def entryOnly (m : DeviceManager) : List Action → Bool
  | [] => true
  | Action.FindAndConnect t :: rest =>
    m.active_device.isNone && entryOnly (m.step (Action.FindAndConnect t)) rest
  | a :: rest => entryOnly (m.step a) rest

/-- The positions of the catalog whose device is connected. -/
def connectedPositions (m : DeviceManager) : List Nat :=
  (List.range m.devices.length).filter (fun i =>
    match m.devices[i]? with
    | some d => d.IsConnected
    | none => false)

/-- Every connected device of the catalog is the active one. -/
def SingleConnection (m : DeviceManager) : Prop :=
  ∀ i d, m.devices[i]? = some d → d.IsConnected = true → m.active_device = some i

/-- At most one device of the catalog is connected. -/
def AtMostOneConnected (m : DeviceManager) : Prop :=
  ∀ (i j : Nat) (di dj : EndgameGearDevice), m.devices[i]? = some di → m.devices[j]? = some dj →
    EndgameGearDevice.IsConnected di = true → EndgameGearDevice.IsConnected dj = true → i = j

end DeviceManager

/-! ## Sample data used to run the definitions -/

/-- A stand-in for the OP1W mouse: priority 1, product id `0x1970` (wireless) and
`0x1972` (wired). -/
def sampleOP1W : Variant :=
  { GetDeviceName := "OP1w 4k", GetDeviceType := "OP1W", GetPriority := 1,
    GetSupportedPIDs := [0x1970, 0x1972], IsWiredPID := fun pid => pid == 0x1972 }

/-- A stand-in for the XM2W v2 mouse: priority 2, product id `0x1982` (wireless) and
`0x1984` (wired). -/
def sampleXM2W : Variant :=
  { GetDeviceName := "XM2w 4k v2", GetDeviceType := "XM2Wv2", GetPriority := 2,
    GetSupportedPIDs := [0x1982, 0x1984], IsWiredPID := fun pid => pid == 0x1984 }

/-- A stand-in for the wireless dongle: priority 3, product id `0x1973` only. -/
def sampleDongle : Variant :=
  { GetDeviceName := "Dongle", GetDeviceType := "Dongle", GetPriority := 3,
    GetSupportedPIDs := [0x1973], IsWiredPID := fun _ => false }

/-- A reply whose byte 1 is `b1` and whose byte 16 is `b16`. -/
def sampleReply (b1 b16 : Nat) : List Nat :=
  [0xA1, b1, 0, 0, 0, 0, 0, 0, 0, 0, 0, 0, 0, 0, 0, 0, b16]

/-- A transport with nothing attached whose sends succeed and whose reads
answer `first` on the first read of a call and `second` afterwards. -/
def sampleTransport (first second : List Nat) : Transport :=
  { enumerate := fun _ _ => [],
    openOk := fun _ => false,
    sendFeatureReport := fun _ _ _ _ => true,
    getFeatureReport := fun _ n _ _ => (true, if n = 0 then first else second) }

/-- A transport with nothing attached whose sends succeed and whose reads fail. -/
def sampleDeafTransport : Transport :=
  { enumerate := fun _ _ => [],
    openOk := fun _ => false,
    sendFeatureReport := fun _ _ _ _ => true,
    getFeatureReport := fun _ _ _ _ => (false, []) }

/-- A transport on which exactly the product ids in `present` enumerate one
matching descriptor (whose path is the product id) and every open succeeds. -/
def samplePlugged (present : List Nat) : Transport :=
  { enumerate := fun _ pid =>
      if pid ∈ present then [⟨pid, EndgameGearDevice.USAGE_PAGE, EndgameGearDevice.USAGE⟩] else [],
    openOk := fun _ => true,
    sendFeatureReport := fun _ _ _ _ => true,
    getFeatureReport := fun _ _ _ _ => (true, sampleReply 8 55) }

/-- A transport on which every product id enumerates a matching descriptor and
every open fails. -/
def sampleLocked : Transport :=
  { enumerate := fun _ pid => [⟨pid, EndgameGearDevice.USAGE_PAGE, EndgameGearDevice.USAGE⟩],
    openOk := fun _ => false,
    sendFeatureReport := fun _ _ _ _ => false,
    getFeatureReport := fun _ _ _ _ => (false, []) }

/-- The manager as constructed, over the three stand-in variants. -/
def sampleManager : DeviceManager := DeviceManager.new [sampleOP1W, sampleXM2W, sampleDongle]

/-- The sample XM2W connected under its wireless product id. -/
def sampleXM2WConnected : EndgameGearDevice :=
  { variant := sampleXM2W, device := { handle := some 0x1982 }, current_pid := 0x1982,
    last_status := {} }

/-- The sample OP1W connected under its wireless product id. -/
def sampleOP1WConnected : EndgameGearDevice :=
  { variant := sampleOP1W, device := { handle := some 0x1970 }, current_pid := 0x1970,
    last_status := {} }

/-- The sample manager after `FindAndConnect` while only the priority 2 variant
is plugged in. -/
def sampleActiveXM2W : DeviceManager :=
  (sampleManager.FindAndConnect (samplePlugged [0x1982])).mgr

/-- The sample OP1W connected on path 7 under its wireless product id. -/
def sampleConnected : EndgameGearDevice :=
  { variant := sampleOP1W, device := { handle := some 7 }, current_pid := 0x1970,
    last_status := {} }

/-! ## The exchange, named step by step -/

namespace EndgameGearDevice

/-- Result of the `n`-th `SendBatteryCommand` of a `ReadBattery` call. -/
def sendOk (t : Transport) (d : EndgameGearDevice) (n : Nat) : Bool :=
  (d.SendBatteryCommand t n REPORT_ID BATTERY_CMD REPORT_SIZE).1

/-- Result of the `n`-th `GetFeatureReport` of a `ReadBattery` call. -/
def readOk (t : Transport) (d : EndgameGearDevice) (n : Nat) : Bool :=
  (d.device.GetFeatureReport t n REPORT_ID REPORT_SIZE).1.1

/-- Content of `read_buffer` after the `n`-th `GetFeatureReport` of a call. -/
def reply (t : Transport) (d : EndgameGearDevice) (n : Nat) : List Nat :=
  read_buffer (d.device.GetFeatureReport t n REPORT_ID REPORT_SIZE).1.2

/-- Both sends and both reads succeed. -/
def exchangeOk (t : Transport) (d : EndgameGearDevice) : Bool :=
  sendOk t d 0 && readOk t d 0 && sendOk t d 1 && readOk t d 1

/-- Byte 1 of the second reply is `0x01` or `0x08`. -/
def echoOk (t : Transport) (d : EndgameGearDevice) : Bool :=
  (reply t d 1).getD 1 0 = 0x01 || (reply t d 1).getD 1 0 = 0x08

end EndgameGearDevice

/-! ## Calls on one device -/

/-- A call a client can make on one `EndgameGearDevice`, with the transport
behaviour during that call. -/
inductive DeviceAction where
  | FindAndConnect (t : Transport)
  | Disconnect
  | ReadBattery (t : Transport)

namespace EndgameGearDevice

/-- The device after one client call. -/
def step (d : EndgameGearDevice) : DeviceAction → EndgameGearDevice
  | DeviceAction.FindAndConnect t => (d.FindAndConnect t).dev
  | DeviceAction.Disconnect => d.Disconnect
  | DeviceAction.ReadBattery t => (d.ReadBattery t).dev

/-- The device after a sequence of client calls. -/
def run (d : EndgameGearDevice) : List DeviceAction → EndgameGearDevice
  | [] => d
  | a :: rest => run (d.step a) rest

/-- The connection-state invariant of the data model: the matched product id is
non-zero exactly when the handle is open. -/
def PidMatchesHandle (d : EndgameGearDevice) : Prop :=
  d.current_pid ≠ 0 ↔ d.IsConnected = true

/-- In the words of the specification: a descriptor with usage page `0xFF01` and
usage `0x0002` that opens successfully. -/
def opens (t : Transport) (info : DeviceInfo) : Bool :=
  decide (info.usage_page = 0xFF01) && decide (info.usage = 0x0002) && t.openOk info.path

/-- In the words of the specification: the first descriptor, in enumeration order
for vendor `0x3367` and product id `pid`, that matches and opens. -/
def firstOpening (t : Transport) (pid : Nat) : Option DeviceInfo :=
  (t.enumerate 0x3367 pid).find? (opens t)

/-- In the words of the specification: the first supported product id, in the
order of the variant, for which some descriptor matches and opens. -/
def firstMatchingPID (t : Transport) (d : EndgameGearDevice) : Option Nat :=
  d.variant.GetSupportedPIDs.find? (fun pid => (firstOpening t pid).isSome)

end EndgameGearDevice

/-- The time a step of a call waits, in milliseconds. -/
def Event.waitMs : Event → Nat
  | .sleep_for ms => ms
  | _ => 0

/-- A transport on which product id `0x1970` enumerates a descriptor of another
usage page (path 1), a matching descriptor that does not open (path 2) and a
matching descriptor that opens (path 3). -/
def sampleMixed : Transport :=
  { enumerate := fun _ pid =>
      if pid = 0x1970 then [⟨1, 0xFF00, 0x0002⟩, ⟨2, 0xFF01, 0x0002⟩, ⟨3, 0xFF01, 0x0002⟩] else [],
    openOk := fun path => path == 3,
    sendFeatureReport := fun _ _ _ _ => true,
    getFeatureReport := fun _ _ _ _ => (true, sampleReply 1 120) }

end EndgameGear

/-! # Theorems -/

namespace EndgameGear
open EndgameGearDevice

/-! ## The battery exchange -/

/-- One iteration of the loop of `ReadBattery`, in terms of the named steps. -/
theorem attemptLoop_succ (t : Transport) (d : EndgameGearDevice) (remaining attempt : Nat) :
    attemptLoop t d (remaining + 1) attempt =
      if !sendOk t d attempt then
        ⟨{}, d, [Event.SendFeatureReport (write_buffer REPORT_ID BATTERY_CMD) REPORT_SIZE
                  (sendOk t d attempt)]⟩
      else if !readOk t d attempt then
        ⟨{}, d, [Event.SendFeatureReport (write_buffer REPORT_ID BATTERY_CMD) REPORT_SIZE
                  (sendOk t d attempt),
                 Event.sleep_for 350,
                 Event.GetFeatureReport REPORT_ID REPORT_SIZE (readOk t d attempt)]⟩
      else if attempt = 0 then
        ⟨(attemptLoop t d remaining (attempt + 1)).ret, (attemptLoop t d remaining (attempt + 1)).dev,
         [Event.SendFeatureReport (write_buffer REPORT_ID BATTERY_CMD) REPORT_SIZE (sendOk t d attempt),
          Event.sleep_for 350, Event.GetFeatureReport REPORT_ID REPORT_SIZE (readOk t d attempt),
          Event.sleep_for 100] ++ (attemptLoop t d remaining (attempt + 1)).trace⟩
      else if (reply t d attempt).getD 1 0 ≠ 0x01 ∧ (reply t d attempt).getD 1 0 ≠ 0x08 then
        ⟨{}, d, [Event.SendFeatureReport (write_buffer REPORT_ID BATTERY_CMD) REPORT_SIZE
                  (sendOk t d attempt),
                 Event.sleep_for 350,
                 Event.GetFeatureReport REPORT_ID REPORT_SIZE (readOk t d attempt)]⟩
      else
        ⟨d.ParseBatteryResponse ((reply t d attempt).getD 16 0),
         { d with last_status := d.ParseBatteryResponse ((reply t d attempt).getD 16 0) },
         [Event.SendFeatureReport (write_buffer REPORT_ID BATTERY_CMD) REPORT_SIZE (sendOk t d attempt),
          Event.sleep_for 350,
          Event.GetFeatureReport REPORT_ID REPORT_SIZE (readOk t d attempt)]⟩ := rfl

/-- Leaving the loop of `ReadBattery` reaches the final `return {};`. -/
theorem attemptLoop_zero (t : Transport) (d : EndgameGearDevice) (attempt : Nat) :
    attemptLoop t d 0 attempt = ⟨{}, d, []⟩ := rfl

/-- The echo byte is rejected exactly when `echoOk` is false. -/
theorem echo_rejected_iff (t : Transport) (d : EndgameGearDevice) :
    ((reply t d 1).getD 1 0 ≠ 0x01 ∧ (reply t d 1).getD 1 0 ≠ 0x08) ↔ echoOk t d = false := by
  simp only [echoOk, Bool.or_eq_false_iff, decide_eq_false_iff_not, ne_eq]

/-- The loop of `ReadBattery` written out for its two iterations. -/
theorem ReadBattery_unfold (t : Transport) (d : EndgameGearDevice) :
    d.ReadBattery t =
      if d.IsConnected = false then ⟨{}, d, []⟩
      else if sendOk t d 0 = false then
        ⟨{}, d, [Event.SendFeatureReport (write_buffer REPORT_ID BATTERY_CMD) REPORT_SIZE false]⟩
      else if readOk t d 0 = false then
        ⟨{}, d, [Event.SendFeatureReport (write_buffer REPORT_ID BATTERY_CMD) REPORT_SIZE true,
                 Event.sleep_for 350, Event.GetFeatureReport REPORT_ID REPORT_SIZE false]⟩
      else if sendOk t d 1 = false then
        ⟨{}, d, [Event.SendFeatureReport (write_buffer REPORT_ID BATTERY_CMD) REPORT_SIZE true,
                 Event.sleep_for 350, Event.GetFeatureReport REPORT_ID REPORT_SIZE true,
                 Event.sleep_for 100,
                 Event.SendFeatureReport (write_buffer REPORT_ID BATTERY_CMD) REPORT_SIZE false]⟩
      else if readOk t d 1 = false then
        ⟨{}, d, [Event.SendFeatureReport (write_buffer REPORT_ID BATTERY_CMD) REPORT_SIZE true,
                 Event.sleep_for 350, Event.GetFeatureReport REPORT_ID REPORT_SIZE true,
                 Event.sleep_for 100,
                 Event.SendFeatureReport (write_buffer REPORT_ID BATTERY_CMD) REPORT_SIZE true,
                 Event.sleep_for 350, Event.GetFeatureReport REPORT_ID REPORT_SIZE false]⟩
      else if echoOk t d = false then
        ⟨{}, d, [Event.SendFeatureReport (write_buffer REPORT_ID BATTERY_CMD) REPORT_SIZE true,
                 Event.sleep_for 350, Event.GetFeatureReport REPORT_ID REPORT_SIZE true,
                 Event.sleep_for 100,
                 Event.SendFeatureReport (write_buffer REPORT_ID BATTERY_CMD) REPORT_SIZE true,
                 Event.sleep_for 350, Event.GetFeatureReport REPORT_ID REPORT_SIZE true]⟩
      else
        ⟨d.ParseBatteryResponse ((reply t d 1).getD 16 0),
         { d with last_status := d.ParseBatteryResponse ((reply t d 1).getD 16 0) },
         [Event.SendFeatureReport (write_buffer REPORT_ID BATTERY_CMD) REPORT_SIZE true,
          Event.sleep_for 350, Event.GetFeatureReport REPORT_ID REPORT_SIZE true,
          Event.sleep_for 100,
          Event.SendFeatureReport (write_buffer REPORT_ID BATTERY_CMD) REPORT_SIZE true,
          Event.sleep_for 350, Event.GetFeatureReport REPORT_ID REPORT_SIZE true]⟩ := by
  unfold ReadBattery
  cases hc : d.IsConnected
  · rfl
  · simp only [NUM_ATTEMPTS, attemptLoop_succ, attemptLoop_zero, Nat.zero_add, echo_rejected_iff]
    cases sendOk t d 0 <;> cases readOk t d 0 <;> cases sendOk t d 1 <;>
      cases readOk t d 1 <;> cases echoOk t d <;> simp

/-- Every byte of a reply buffer is below 256. -/
theorem reply_getD_lt (t : Transport) (d : EndgameGearDevice) (n i : Nat) :
    (reply t d n).getD i 0 < 256 := by
  unfold reply read_buffer
  rw [List.getD_eq_getElem?_getD, List.getElem?_map]
  cases h : (List.range REPORT_SIZE)[i]? with
  | none => simp
  | some j => simpa using Nat.mod_lt _ (by norm_num)

/-- On a value that fits a `BYTE`, `ParseBatteryResponse` clamps that value. -/
theorem ParseBatteryResponse_byte (d : EndgameGearDevice) (v : Nat) (hv : v < 256) :
    d.ParseBatteryResponse v =
      { percentage := min (v : Int) 100,
        is_charging := d.variant.IsWiredPID d.current_pid,
        is_wireless := !d.variant.IsWiredPID d.current_pid } := by
  simp only [ParseBatteryResponse, Nat.mod_eq_of_lt hv]

/-- C1: for every raw battery byte `v` (0..255) and every device state (so every
current product id), `ParseBatteryResponse v` has percentage `min v 100`, which
lies in `[0, 100]`. -/
theorem ParseBatteryResponse_percentage (d : EndgameGearDevice) (v : Nat) (hv : v ≤ 255) :
    (d.ParseBatteryResponse v).percentage = min (v : Int) 100 ∧
      0 ≤ (d.ParseBatteryResponse v).percentage ∧
      (d.ParseBatteryResponse v).percentage ≤ 100 := by
  rw [ParseBatteryResponse_byte d v (by omega)]
  exact ⟨rfl, le_min (by omega) (by norm_num), min_le_right _ _⟩

/-- Witness for C1: the byte 255 is clamped to 100. -/
theorem ParseBatteryResponse_percentage_witness :
    (255 : Nat) ≤ 255 ∧ (sampleConnected.ParseBatteryResponse 255).percentage = 100 :=
  ⟨by decide, (ParseBatteryResponse_percentage sampleConnected 255 (by decide)).1.trans (by decide)⟩

/-- C2: on a connected device, when both sends and both reads succeed and byte 1
of the second reply is neither `0x01` nor `0x08`, `ReadBattery` returns the failure
sentinel, whatever the rest of the reply (byte 16 included) holds. -/
theorem ReadBattery_invalid_echo (t : Transport) (d : EndgameGearDevice)
    (hconn : d.IsConnected = true) (hok : exchangeOk t d = true)
    (h1 : (reply t d 1).getD 1 0 ≠ 0x01) (h8 : (reply t d 1).getD 1 0 ≠ 0x08) :
    (d.ReadBattery t).ret = { percentage := -1, is_charging := false, is_wireless := false } := by
  simp only [exchangeOk, Bool.and_eq_true] at hok
  obtain ⟨⟨⟨hs0, hg0⟩, hs1⟩, hg1⟩ := hok
  have he : echoOk t d = false := by
    simp only [echoOk, Bool.or_eq_false_iff, decide_eq_false_iff_not]
    exact ⟨h1, h8⟩
  rw [ReadBattery_unfold]
  simp [hconn, hs0, hg0, hs1, hg1, he]

/-- Witness for C2: echo byte `0x02` with battery byte 55. -/
theorem ReadBattery_invalid_echo_witness :
    (sampleConnected.ReadBattery (sampleTransport (sampleReply 8 99) (sampleReply 2 55))).ret
      = { percentage := -1, is_charging := false, is_wireless := false } :=
  ReadBattery_invalid_echo (sampleTransport (sampleReply 8 99) (sampleReply 2 55)) sampleConnected
    (by decide) (by decide) (by decide) (by decide)

/-- C3: on a device that is not connected, `ReadBattery` returns the failure
sentinel, makes no transport call at all (its trace is empty, so no send and no
read), and leaves the device as it was. -/
theorem ReadBattery_not_connected (t : Transport) (d : EndgameGearDevice)
    (hconn : d.IsConnected = false) :
    (d.ReadBattery t).ret = { percentage := -1, is_charging := false, is_wireless := false } ∧
      (d.ReadBattery t).trace = [] ∧ (d.ReadBattery t).dev = d := by
  rw [ReadBattery_unfold]
  simp [hconn]

/-- Witness for C3: a freshly constructed device. -/
theorem ReadBattery_not_connected_witness :
    ((EndgameGearDevice.new sampleOP1W).ReadBattery (sampleTransport [] [])).ret
        = { percentage := -1, is_charging := false, is_wireless := false } ∧
      ((EndgameGearDevice.new sampleOP1W).ReadBattery (sampleTransport [] [])).trace = [] ∧
      ((EndgameGearDevice.new sampleOP1W).ReadBattery (sampleTransport [] [])).dev
        = EndgameGearDevice.new sampleOP1W :=
  ReadBattery_not_connected (sampleTransport [] []) (EndgameGearDevice.new sampleOP1W) (by decide)

/-- C4: on a connected device with matched product id `current_pid`, when both
sends and both reads succeed and byte 1 of the second reply is `0x01` or `0x08`,
`ReadBattery` returns exactly percentage `min reply2[16] 100`, `is_charging =
IsWiredPID current_pid` and `is_wireless = !IsWiredPID current_pid`; and a
percentage other than -1 is returned only under these conditions. -/
theorem ReadBattery_valid_exchange (t : Transport) (d : EndgameGearDevice) :
    (d.IsConnected = true → exchangeOk t d = true → echoOk t d = true →
        (d.ReadBattery t).ret =
          { percentage := min (((reply t d 1).getD 16 0 : Nat) : Int) 100,
            is_charging := d.variant.IsWiredPID d.current_pid,
            is_wireless := !d.variant.IsWiredPID d.current_pid }) ∧
      ((d.ReadBattery t).ret.percentage ≠ -1 →
        d.IsConnected = true ∧ exchangeOk t d = true ∧ echoOk t d = true) := by
  constructor
  · intro hconn hok he
    simp only [exchangeOk, Bool.and_eq_true] at hok
    obtain ⟨⟨⟨hs0, hg0⟩, hs1⟩, hg1⟩ := hok
    rw [ReadBattery_unfold, ParseBatteryResponse_byte d _ (reply_getD_lt t d 1 16)]
    simp [hconn, hs0, hg0, hs1, hg1, he]
  · rw [ReadBattery_unfold]
    intro hp
    cases hconn : d.IsConnected <;> simp only [hconn] at hp
    · simp at hp
    cases hs0 : sendOk t d 0 <;> simp only [hs0] at hp
    · simp at hp
    cases hg0 : readOk t d 0 <;> simp only [hg0] at hp
    · simp at hp
    cases hs1 : sendOk t d 1 <;> simp only [hs1] at hp
    · simp at hp
    cases hg1 : readOk t d 1 <;> simp only [hg1] at hp
    · simp at hp
    cases he : echoOk t d <;> simp only [he] at hp
    · simp at hp
    simp [exchangeOk, hs0, hg0, hs1, hg1]

/-- Witness for C4: echo byte `0x08`, battery byte 55, wireless product id. -/
theorem ReadBattery_valid_exchange_witness :
    (sampleConnected.ReadBattery (sampleTransport (sampleReply 2 99) (sampleReply 8 55))).ret
      = { percentage := 55, is_charging := false, is_wireless := true } :=
  ((ReadBattery_valid_exchange (sampleTransport (sampleReply 2 99) (sampleReply 8 55))
    sampleConnected).1 (by decide) (by decide) (by decide)).trans (by decide)

/-- C5: whatever the transport does, one `ReadBattery` call makes at most two
sends and at most two reads; a failed send or read can only be the last thing the
call does (nothing follows it, so there is no retry), and when one occurs the call
returns the failure sentinel. -/
theorem ReadBattery_failure_terminal (t : Transport) (d : EndgameGearDevice) :
    ((d.ReadBattery t).trace.filter Event.isSend).length ≤ 2 ∧
      ((d.ReadBattery t).trace.filter Event.isGet).length ≤ 2 ∧
      (∀ e ∈ (d.ReadBattery t).trace.dropLast, e.isFailedExchange = false) ∧
      ((∃ e ∈ (d.ReadBattery t).trace, e.isFailedExchange = true) →
        (d.ReadBattery t).ret = { percentage := -1, is_charging := false, is_wireless := false }) := by
  rw [ReadBattery_unfold]
  cases d.IsConnected <;> cases sendOk t d 0 <;> cases readOk t d 0 <;> cases sendOk t d 1 <;>
    cases readOk t d 1 <;> cases echoOk t d <;>
    simp [Event.isSend, Event.isGet, Event.isFailedExchange, List.filter, List.dropLast]

/-- Witness for C5: the first read fails; the call stops after one send and one
read and returns the sentinel. -/
theorem ReadBattery_failure_terminal_witness :
    (sampleConnected.ReadBattery sampleDeafTransport).trace =
        [Event.SendFeatureReport (write_buffer REPORT_ID BATTERY_CMD) REPORT_SIZE true,
         Event.sleep_for 350, Event.GetFeatureReport REPORT_ID REPORT_SIZE false] ∧
      (sampleConnected.ReadBattery sampleDeafTransport).ret
        = { percentage := -1, is_charging := false, is_wireless := false } :=
  ⟨by decide, (ReadBattery_failure_terminal sampleDeafTransport sampleConnected).2.2.2
    ⟨Event.GetFeatureReport REPORT_ID REPORT_SIZE false, by decide, by decide⟩⟩


/-! ## Connecting one device -/

/-- A descriptor whose usage page or usage differs is skipped without a call. -/
theorem scanDescriptors_skip (t : Transport) (pid : Nat) (info : DeviceInfo)
    (rest : List DeviceInfo) (d : EndgameGearDevice)
    (hm : ¬(info.usage_page = USAGE_PAGE ∧ info.usage = USAGE)) :
    scanDescriptors t pid (info :: rest) d = scanDescriptors t pid rest d := by
  simp only [scanDescriptors, hm, if_false]

/-- A matching descriptor that opens ends the scan. -/
theorem scanDescriptors_open (t : Transport) (pid : Nat) (info : DeviceInfo)
    (rest : List DeviceInfo) (d : EndgameGearDevice)
    (hm : info.usage_page = USAGE_PAGE ∧ info.usage = USAGE) (ho : t.openOk info.path = true) :
    scanDescriptors t pid (info :: rest) d =
      ⟨true, { d with device := { handle := some info.path }, current_pid := pid },
        [Event.Open info.path true]⟩ := by
  simp [scanDescriptors, hm, HIDDevice.Open, ho]

/-- A matching descriptor that does not open: the scan goes on with the device as
it was. -/
theorem scanDescriptors_refused (t : Transport) (pid : Nat) (info : DeviceInfo)
    (rest : List DeviceInfo) (d : EndgameGearDevice)
    (hm : info.usage_page = USAGE_PAGE ∧ info.usage = USAGE) (ho : t.openOk info.path = false) :
    scanDescriptors t pid (info :: rest) d =
      ⟨(scanDescriptors t pid rest d).ret, (scanDescriptors t pid rest d).dev,
       Event.Open info.path false :: (scanDescriptors t pid rest d).trace⟩ := by
  simp [scanDescriptors, hm, HIDDevice.Open, ho]

/-- The descriptor scan never changes the variant. -/
theorem scanDescriptors_variant (t : Transport) (pid : Nat) (infos : List DeviceInfo)
    (d : EndgameGearDevice) : (scanDescriptors t pid infos d).dev.variant = d.variant := by
  induction infos generalizing d with
  | nil => rfl
  | cons info rest ih =>
    by_cases hm : info.usage_page = USAGE_PAGE ∧ info.usage = USAGE
    · cases ho : t.openOk info.path
      · rw [scanDescriptors_refused t pid info rest d hm ho]
        exact ih _
      · rw [scanDescriptors_open t pid info rest d hm ho]
    · rw [scanDescriptors_skip t pid info rest d hm]
      exact ih d

/-- A successful descriptor scan leaves the handle open. -/
theorem scanDescriptors_connected (t : Transport) (pid : Nat) (infos : List DeviceInfo)
    (d : EndgameGearDevice) (h : (scanDescriptors t pid infos d).ret = true) :
    EndgameGearDevice.IsConnected (scanDescriptors t pid infos d).dev = true := by
  induction infos generalizing d with
  | nil => simp [scanDescriptors] at h
  | cons info rest ih =>
    by_cases hm : info.usage_page = USAGE_PAGE ∧ info.usage = USAGE
    · cases ho : t.openOk info.path
      · rw [scanDescriptors_refused t pid info rest d hm ho] at h ⊢
        exact ih _ h
      · rw [scanDescriptors_open t pid info rest d hm ho]
        rfl
    · rw [scanDescriptors_skip t pid info rest d hm] at h ⊢
      exact ih d h

/-- A failed descriptor scan changes nothing. -/
theorem scanDescriptors_failed (t : Transport) (pid : Nat) (infos : List DeviceInfo)
    (d : EndgameGearDevice) (h : (scanDescriptors t pid infos d).ret = false) :
    (scanDescriptors t pid infos d).dev = d := by
  induction infos with
  | nil => rfl
  | cons info rest ih =>
    by_cases hm : info.usage_page = USAGE_PAGE ∧ info.usage = USAGE
    · cases ho : t.openOk info.path
      · rw [scanDescriptors_refused t pid info rest d hm ho] at h ⊢
        exact ih h
      · rw [scanDescriptors_open t pid info rest d hm ho] at h
        exact absurd h (by simp)
    · rw [scanDescriptors_skip t pid info rest d hm] at h ⊢
      exact ih h

/-- When every open fails, the descriptor scan fails. -/
theorem scanDescriptors_locked (t : Transport) (pid : Nat) (infos : List DeviceInfo)
    (d : EndgameGearDevice) (hl : ∀ info ∈ infos, t.openOk info.path = false) :
    (scanDescriptors t pid infos d).ret = false := by
  induction infos generalizing d with
  | nil => rfl
  | cons info rest ih =>
    have ho : t.openOk info.path = false := hl info (List.mem_cons_self _ _)
    have hr : ∀ x ∈ rest, t.openOk x.path = false := fun x hx => hl x (List.mem_cons_of_mem _ hx)
    by_cases hm : info.usage_page = USAGE_PAGE ∧ info.usage = USAGE
    · rw [scanDescriptors_refused t pid info rest d hm ho]
      exact ih _ hr
    · rw [scanDescriptors_skip t pid info rest d hm]
      exact ih d hr

/-- A product id that connects ends the loop of `FindAndConnect`. -/
theorem tryPIDs_hit (t : Transport) (pid : Nat) (rest : List Nat) (d : EndgameGearDevice)
    (h : (FindAndConnectWithPID t d pid).ret = true) :
    tryPIDs t (pid :: rest) d =
      ⟨true, (FindAndConnectWithPID t d pid).dev, (FindAndConnectWithPID t d pid).trace⟩ := by
  simp [tryPIDs, h]

/-- A product id that does not connect: the loop of `FindAndConnect` goes on. -/
theorem tryPIDs_miss (t : Transport) (pid : Nat) (rest : List Nat) (d : EndgameGearDevice)
    (h : (FindAndConnectWithPID t d pid).ret = false) :
    tryPIDs t (pid :: rest) d =
      ⟨(tryPIDs t rest (FindAndConnectWithPID t d pid).dev).ret,
       (tryPIDs t rest (FindAndConnectWithPID t d pid).dev).dev,
       (FindAndConnectWithPID t d pid).trace ++
         (tryPIDs t rest (FindAndConnectWithPID t d pid).dev).trace⟩ := by
  simp [tryPIDs, h]

/-- The product id loop never changes the variant. -/
theorem tryPIDs_variant (t : Transport) (pids : List Nat) (d : EndgameGearDevice) :
    (tryPIDs t pids d).dev.variant = d.variant := by
  induction pids generalizing d with
  | nil => rfl
  | cons pid rest ih =>
    have hv : (FindAndConnectWithPID t d pid).dev.variant = d.variant :=
      scanDescriptors_variant t pid _ d
    cases h : (FindAndConnectWithPID t d pid).ret
    · rw [tryPIDs_miss t pid rest d h]
      exact (ih _).trans hv
    · rw [tryPIDs_hit t pid rest d h]
      exact hv

/-- A successful product id loop leaves the handle open. -/
theorem tryPIDs_connected (t : Transport) (pids : List Nat) (d : EndgameGearDevice)
    (h : (tryPIDs t pids d).ret = true) :
    EndgameGearDevice.IsConnected (tryPIDs t pids d).dev = true := by
  induction pids generalizing d with
  | nil => simp [tryPIDs] at h
  | cons pid rest ih =>
    cases h1 : (FindAndConnectWithPID t d pid).ret
    · rw [tryPIDs_miss t pid rest d h1] at h ⊢
      exact ih _ h
    · rw [tryPIDs_hit t pid rest d h1]
      exact scanDescriptors_connected t pid _ d h1

/-- A failed product id loop changes nothing. -/
theorem tryPIDs_failed (t : Transport) (pids : List Nat) (d : EndgameGearDevice)
    (h : (tryPIDs t pids d).ret = false) :
    (tryPIDs t pids d).dev = d := by
  induction pids with
  | nil => rfl
  | cons pid rest ih =>
    cases h1 : (FindAndConnectWithPID t d pid).ret
    · have e : (FindAndConnectWithPID t d pid).dev = d := scanDescriptors_failed t pid _ d h1
      rw [tryPIDs_miss t pid rest d h1, e] at h ⊢
      exact ih h
    · rw [tryPIDs_hit t pid rest d h1] at h
      exact absurd h (by simp)

/-- When every open fails, the product id loop fails. -/
theorem tryPIDs_locked (t : Transport) (pids : List Nat) (d : EndgameGearDevice)
    (hl : ∀ pid ∈ pids, ∀ info ∈ t.enumerate VID pid, t.openOk info.path = false) :
    (tryPIDs t pids d).ret = false := by
  induction pids generalizing d with
  | nil => rfl
  | cons pid rest ih =>
    have h1 : (FindAndConnectWithPID t d pid).ret = false :=
      scanDescriptors_locked t pid _ d (hl pid (List.mem_cons_self _ _))
    rw [tryPIDs_miss t pid rest d h1]
    exact ih _ (fun p hp => hl p (List.mem_cons_of_mem _ hp))

/-- The call `FindAndConnect` never changes the variant. -/
theorem FindAndConnect_variant (t : Transport) (d : EndgameGearDevice) :
    (d.FindAndConnect t).dev.variant = d.variant :=
  tryPIDs_variant t _ d

/-- A successful `FindAndConnect` leaves the device connected. -/
theorem FindAndConnect_connected (t : Transport) (d : EndgameGearDevice)
    (h : (d.FindAndConnect t).ret = true) :
    EndgameGearDevice.IsConnected (d.FindAndConnect t).dev = true :=
  tryPIDs_connected t _ d h

/-- A failed `FindAndConnect` changes nothing. -/
theorem FindAndConnect_failed (t : Transport) (d : EndgameGearDevice)
    (h : (d.FindAndConnect t).ret = false) : (d.FindAndConnect t).dev = d :=
  tryPIDs_failed t _ d h

/-- When every open fails, `FindAndConnect` fails. -/
theorem FindAndConnect_locked (t : Transport) (d : EndgameGearDevice)
    (hl : ∀ pid ∈ d.variant.GetSupportedPIDs, ∀ info ∈ t.enumerate VID pid,
      t.openOk info.path = false) :
    (d.FindAndConnect t).ret = false :=
  tryPIDs_locked t _ d hl

/-! ## The scan over the catalog -/

/-- A device that is not a candidate is passed over. -/
theorem scanLoop_skip (t : Transport) (cand : Nat → EndgameGearDevice → Bool)
    (d : EndgameGearDevice) (rest : List EndgameGearDevice) (k : Nat) (hc : cand k d = false) :
    scanLoop t cand (d :: rest) k =
      ⟨(scanLoop t cand rest (k + 1)).found, d :: (scanLoop t cand rest (k + 1)).devices,
       (scanLoop t cand rest (k + 1)).calls⟩ := by
  simp [scanLoop, hc]

/-- A candidate that connects ends the scan. -/
theorem scanLoop_hit (t : Transport) (cand : Nat → EndgameGearDevice → Bool)
    (d : EndgameGearDevice) (rest : List EndgameGearDevice) (k : Nat) (hc : cand k d = true)
    (hr : (d.FindAndConnect t).ret = true) :
    scanLoop t cand (d :: rest) k =
      ⟨some k, (d.FindAndConnect t).dev :: rest,
       [⟨k, Method.FindAndConnect, (d.FindAndConnect t).trace⟩]⟩ := by
  simp [scanLoop, hc, hr]

/-- A candidate that does not connect: the scan goes on. -/
theorem scanLoop_miss (t : Transport) (cand : Nat → EndgameGearDevice → Bool)
    (d : EndgameGearDevice) (rest : List EndgameGearDevice) (k : Nat) (hc : cand k d = true)
    (hr : (d.FindAndConnect t).ret = false) :
    scanLoop t cand (d :: rest) k =
      ⟨(scanLoop t cand rest (k + 1)).found,
       (d.FindAndConnect t).dev :: (scanLoop t cand rest (k + 1)).devices,
       ⟨k, Method.FindAndConnect, (d.FindAndConnect t).trace⟩ ::
         (scanLoop t cand rest (k + 1)).calls⟩ := by
  simp [scanLoop, hc, hr]

/-- The scan keeps the length of the catalog. -/
theorem scanLoop_length (t : Transport) (cand : Nat → EndgameGearDevice → Bool)
    (l : List EndgameGearDevice) (k : Nat) : (scanLoop t cand l k).devices.length = l.length := by
  induction l generalizing k with
  | nil => rfl
  | cons d rest ih =>
    cases hc : cand k d
    · rw [scanLoop_skip t cand d rest k hc]
      simp [ih]
    · cases hr : (d.FindAndConnect t).ret
      · rw [scanLoop_miss t cand d rest k hc hr]
        simp [ih]
      · rw [scanLoop_hit t cand d rest k hc hr]
        simp

/-- What a scan that found a position did: the position holds the first candidate
that connects, it now holds the connected device, and everything after it is
untouched. -/
theorem scanLoop_found (t : Transport) (cand : Nat → EndgameGearDevice → Bool)
    (l : List EndgameGearDevice) (k i : Nat) (h : (scanLoop t cand l k).found = some i) :
    ∃ j d, i = k + j ∧ l[j]? = some d ∧ cand i d = true ∧ (d.FindAndConnect t).ret = true ∧
      (scanLoop t cand l k).devices[j]? = some (d.FindAndConnect t).dev ∧
      (∀ j2 x, j2 < j → l[j2]? = some x → cand (k + j2) x = true →
        (x.FindAndConnect t).ret = false) ∧
      (∀ j2, j < j2 → (scanLoop t cand l k).devices[j2]? = l[j2]?) := by
  induction l generalizing k with
  | nil => simp [scanLoop] at h
  | cons d rest ih =>
    cases hc : cand k d
    · rw [scanLoop_skip t cand d rest k hc] at h ⊢
      obtain ⟨j, x, hi, hx, hcx, hrx, hdev, hbefore, hafter⟩ := ih (k + 1) h
      refine ⟨j + 1, x, by omega, by simpa using hx, hcx, hrx, by simpa using hdev, ?_, ?_⟩
      · intro j2 y hj2 hy hcy
        cases j2 with
        | zero =>
          simp only [List.getElem?_cons_zero, Option.some.injEq] at hy
          subst hy
          simp [hc] at hcy
        | succ j3 =>
          have e : k + (j3 + 1) = k + 1 + j3 := by omega
          rw [e] at hcy
          exact hbefore j3 y (by omega) (by simpa using hy) hcy
      · intro j2 hj2
        cases j2 with
        | zero => omega
        | succ j3 => simpa using hafter j3 (by omega)
    · cases hr : (d.FindAndConnect t).ret
      · rw [scanLoop_miss t cand d rest k hc hr] at h ⊢
        obtain ⟨j, x, hi, hx, hcx, hrx, hdev, hbefore, hafter⟩ := ih (k + 1) h
        refine ⟨j + 1, x, by omega, by simpa using hx, hcx, hrx, by simpa using hdev, ?_, ?_⟩
        · intro j2 y hj2 hy hcy
          cases j2 with
          | zero =>
            simp only [List.getElem?_cons_zero, Option.some.injEq] at hy
            subst hy
            exact hr
          | succ j3 =>
            have e : k + (j3 + 1) = k + 1 + j3 := by omega
            rw [e] at hcy
            exact hbefore j3 y (by omega) (by simpa using hy) hcy
        · intro j2 hj2
          cases j2 with
          | zero => omega
          | succ j3 => simpa using hafter j3 (by omega)
      · rw [scanLoop_hit t cand d rest k hc hr] at h ⊢
        simp only [Option.some.injEq] at h
        subst h
        refine ⟨0, d, rfl, by simp, hc, hr, by simp, ?_, ?_⟩
        · intro j2 y hj2
          omega
        · intro j2 hj2
          cases j2 with
          | zero => omega
          | succ j3 => simp

/-- A scan that found nothing: no candidate connects. -/
theorem scanLoop_none (t : Transport) (cand : Nat → EndgameGearDevice → Bool)
    (l : List EndgameGearDevice) (k : Nat) (h : (scanLoop t cand l k).found = none) :
    ∀ j x, l[j]? = some x → cand (k + j) x = true → (x.FindAndConnect t).ret = false := by
  induction l generalizing k with
  | nil => intro j x hx; simp at hx
  | cons d rest ih =>
    intro j x hx hcx
    cases hc : cand k d
    · rw [scanLoop_skip t cand d rest k hc] at h
      cases j with
      | zero =>
        simp only [List.getElem?_cons_zero, Option.some.injEq] at hx
        subst hx
        simp [hc] at hcx
      | succ j3 =>
        have e : k + (j3 + 1) = k + 1 + j3 := by omega
        rw [e] at hcx
        exact ih (k + 1) h j3 x (by simpa using hx) hcx
    · cases hr : (d.FindAndConnect t).ret
      · rw [scanLoop_miss t cand d rest k hc hr] at h
        cases j with
        | zero =>
          simp only [List.getElem?_cons_zero, Option.some.injEq] at hx
          subst hx
          exact hr
        | succ j3 =>
          have e : k + (j3 + 1) = k + 1 + j3 := by omega
          rw [e] at hcx
          exact ih (k + 1) h j3 x (by simpa using hx) hcx
      · rw [scanLoop_hit t cand d rest k hc hr] at h
        simp at h

/-- Each device after a scan is what it was, or is a candidate after its own
`FindAndConnect` (and if that call succeeded, it is the position found). -/
theorem scanLoop_devices (t : Transport) (cand : Nat → EndgameGearDevice → Bool)
    (l : List EndgameGearDevice) (k : Nat) :
    ∀ j x, l[j]? = some x →
      (scanLoop t cand l k).devices[j]? = some x ∨
      (cand (k + j) x = true ∧
        (scanLoop t cand l k).devices[j]? = some (x.FindAndConnect t).dev ∧
        ((x.FindAndConnect t).ret = true → (scanLoop t cand l k).found = some (k + j))) := by
  induction l generalizing k with
  | nil => intro j x hx; simp at hx
  | cons d rest ih =>
    intro j x hx
    cases hc : cand k d
    · rw [scanLoop_skip t cand d rest k hc]
      cases j with
      | zero => left; simpa using hx
      | succ j3 =>
        have e : k + (j3 + 1) = k + 1 + j3 := by omega
        rw [e]
        simpa using ih (k + 1) j3 x (by simpa using hx)
    · cases hr : (d.FindAndConnect t).ret
      · rw [scanLoop_miss t cand d rest k hc hr]
        cases j with
        | zero =>
          simp only [List.getElem?_cons_zero, Option.some.injEq] at hx
          subst hx
          right
          exact ⟨hc, by simp, fun h => absurd h (by simp [hr])⟩
        | succ j3 =>
          have e : k + (j3 + 1) = k + 1 + j3 := by omega
          rw [e]
          simpa using ih (k + 1) j3 x (by simpa using hx)
      · rw [scanLoop_hit t cand d rest k hc hr]
        cases j with
        | zero =>
          simp only [List.getElem?_cons_zero, Option.some.injEq] at hx
          subst hx
          right
          exact ⟨hc, by simp, fun _ => rfl⟩
        | succ j3 => left; simpa using hx

/-- Every call made by a scan is a `FindAndConnect` on a candidate, at a position
not after the one found. -/
theorem scanLoop_calls (t : Transport) (cand : Nat → EndgameGearDevice → Bool)
    (l : List EndgameGearDevice) (k : Nat) :
    ∀ c ∈ (scanLoop t cand l k).calls, c.method = Method.FindAndConnect ∧
      ∃ j x, c.index = k + j ∧ l[j]? = some x ∧ cand (k + j) x = true ∧
        c.trace = (x.FindAndConnect t).trace ∧
        (∀ i, (scanLoop t cand l k).found = some i → c.index ≤ i) := by
  induction l generalizing k with
  | nil => intro c hc; simp [scanLoop] at hc
  | cons d rest ih =>
    intro c hmem
    cases hc : cand k d
    · rw [scanLoop_skip t cand d rest k hc] at hmem ⊢
      obtain ⟨hm, j, x, hi, hx, hcx, htr, hle⟩ := ih (k + 1) c hmem
      exact ⟨hm, j + 1, x, by omega, by simpa using hx,
        by rw [show k + (j + 1) = k + 1 + j by omega]; exact hcx, htr, hle⟩
    · cases hr : (d.FindAndConnect t).ret
      · rw [scanLoop_miss t cand d rest k hc hr] at hmem ⊢
        rcases List.mem_cons.mp hmem with rfl | hmem2
        · refine ⟨rfl, 0, d, rfl, by simp, hc, rfl, ?_⟩
          intro i hi
          obtain ⟨j, _, hij, _⟩ := scanLoop_found t cand rest (k + 1) i hi
          show k ≤ i
          omega
        · obtain ⟨hm, j, x, hi, hx, hcx, htr, hle⟩ := ih (k + 1) c hmem2
          exact ⟨hm, j + 1, x, by omega, by simpa using hx,
            by rw [show k + (j + 1) = k + 1 + j by omega]; exact hcx, htr, hle⟩
      · rw [scanLoop_hit t cand d rest k hc hr] at hmem ⊢
        rcases List.mem_singleton.mp hmem with rfl
        refine ⟨rfl, 0, d, rfl, by simp, hc, rfl, ?_⟩
        intro i hi
        simp only [Option.some.injEq] at hi
        show k ≤ i
        omega

/-- Every candidate at a position not after the one found was asked to connect. -/
theorem scanLoop_tried (t : Transport) (cand : Nat → EndgameGearDevice → Bool)
    (l : List EndgameGearDevice) (k : Nat) :
    ∀ j x, l[j]? = some x → cand (k + j) x = true →
      (∀ i, (scanLoop t cand l k).found = some i → k + j ≤ i) →
      ∃ c ∈ (scanLoop t cand l k).calls, c.index = k + j ∧ c.method = Method.FindAndConnect ∧
        c.trace = (x.FindAndConnect t).trace := by
  induction l generalizing k with
  | nil => intro j x hx; simp at hx
  | cons d rest ih =>
    intro j x hx hcx hle
    cases hc : cand k d
    · rw [scanLoop_skip t cand d rest k hc] at hle ⊢
      cases j with
      | zero =>
        simp only [List.getElem?_cons_zero, Option.some.injEq] at hx
        subst hx
        simp [hc] at hcx
      | succ j3 =>
        have e : k + (j3 + 1) = k + 1 + j3 := by omega
        rw [e] at hcx hle ⊢
        exact ih (k + 1) j3 x (by simpa using hx) hcx hle
    · cases hr : (d.FindAndConnect t).ret
      · rw [scanLoop_miss t cand d rest k hc hr] at hle ⊢
        cases j with
        | zero =>
          simp only [List.getElem?_cons_zero, Option.some.injEq] at hx
          subst hx
          exact ⟨_, List.mem_cons_self _ _, rfl, rfl, rfl⟩
        | succ j3 =>
          have e : k + (j3 + 1) = k + 1 + j3 := by omega
          rw [e] at hcx hle ⊢
          obtain ⟨c, hmem, hc1, hc2, hc3⟩ := ih (k + 1) j3 x (by simpa using hx) hcx hle
          exact ⟨c, List.mem_cons_of_mem _ hmem, hc1, hc2, hc3⟩
      · rw [scanLoop_hit t cand d rest k hc hr] at hle ⊢
        cases j with
        | zero =>
          simp only [List.getElem?_cons_zero, Option.some.injEq] at hx
          subst hx
          exact ⟨_, List.mem_singleton_self _, rfl, rfl, rfl⟩
        | succ j3 =>
          have := hle k rfl
          omega

/-- A scan in which no candidate connects finds nothing and leaves the catalog as
it was. -/
theorem scanLoop_unchanged (t : Transport) (cand : Nat → EndgameGearDevice → Bool)
    (l : List EndgameGearDevice) (k : Nat)
    (h : ∀ j x, l[j]? = some x → cand (k + j) x = true →
      (x.FindAndConnect t).ret = false) :
    (scanLoop t cand l k).found = none ∧ (scanLoop t cand l k).devices = l := by
  induction l generalizing k with
  | nil => exact ⟨rfl, rfl⟩
  | cons d rest ih =>
    have hrest : ∀ j x, rest[j]? = some x → cand (k + 1 + j) x = true →
        (x.FindAndConnect t).ret = false := by
      intro j x hx hcx
      have e : k + (j + 1) = k + 1 + j := by omega
      exact h (j + 1) x (by simpa using hx) (by rw [e]; exact hcx)
    obtain ⟨ih1, ih2⟩ := ih (k + 1) hrest
    cases hc : cand k d
    · rw [scanLoop_skip t cand d rest k hc]
      exact ⟨ih1, by simp [ih2]⟩
    · have hr := h 0 d (by simp) hc
      rw [scanLoop_miss t cand d rest k hc hr]
      exact ⟨ih1, by simp [ih2, FindAndConnect_failed t d hr]⟩

/-- The loop of `DeviceManager::FindAndConnect` is the scan in which every device
is a candidate. -/
theorem connectLoop_eq_scanLoop (t : Transport) (l : List EndgameGearDevice) (k : Nat) :
    DeviceManager.connectLoop t l k = scanLoop t (fun _ _ => true) l k := by
  induction l generalizing k with
  | nil => rfl
  | cons d rest ih => simp only [DeviceManager.connectLoop, scanLoop, ih, if_true]

/-- The loop of `DeviceManager::ShouldSwitchDevice` is the scan over the
candidates that are not active and have a strictly lower priority value. -/
theorem switchLoop_eq_scanLoop (t : Transport) (a : Nat) (p : Int)
    (l : List EndgameGearDevice) (k : Nat) :
    DeviceManager.switchLoop t a p l k = scanLoop t (switchCandidate a p) l k := by
  induction l generalizing k with
  | nil => rfl
  | cons d rest ih =>
    simp only [DeviceManager.switchLoop, scanLoop, ih, switchCandidate]
    by_cases h1 : k = a
    · simp [h1]
    · by_cases h2 : d.variant.GetPriority < p
      · simp [h1, h2]
      · simp [h1, h2]

/-- Being a candidate of `ShouldSwitchDevice`, spelled out. -/
theorem switchCandidate_iff (a : Nat) (p : Int) (i : Nat) (d : EndgameGearDevice) :
    switchCandidate a p i d = true ↔ i ≠ a ∧ d.variant.GetPriority < p := by
  simp [switchCandidate]

/-! ## Calls through the active pointer -/

/-- Reading the catalog after a call through a pointer. -/
theorem modifyAt_getElem? {α : Type} (f : α → α) (l : List α) (a j : Nat) :
    (modifyAt f l a)[j]? = if j = a then (l[j]?).map f else l[j]? := by
  induction l generalizing a j with
  | nil => simp [modifyAt]
  | cons x xs ih =>
    cases a with
    | zero =>
      cases j with
      | zero => simp [modifyAt]
      | succ j2 => simp [modifyAt]
    | succ a2 =>
      cases j with
      | zero => simp [modifyAt]
      | succ j2 => simp [modifyAt, ih]

/-- A call through a pointer keeps the length of the catalog. -/
theorem modifyAt_length {α : Type} (f : α → α) (l : List α) (a : Nat) :
    (modifyAt f l a).length = l.length := by
  induction l generalizing a with
  | nil => rfl
  | cons x xs ih =>
    cases a with
    | zero => rfl
    | succ a2 => simp [modifyAt, ih]

/-! ## The arbiter -/

/-- The outcome of `DeviceManager::FindAndConnect` when the loop found a position. -/
theorem FindAndConnect_of_found (t : Transport) (m : DeviceManager) (i : Nat)
    (h : (scanLoop t (fun _ _ => true) m.devices 0).found = some i) :
    m.FindAndConnect t =
      ⟨true, { devices := (scanLoop t (fun _ _ => true) m.devices 0).devices,
               active_device := some i },
       (scanLoop t (fun _ _ => true) m.devices 0).calls⟩ := by
  simp only [DeviceManager.FindAndConnect, connectLoop_eq_scanLoop, h]

/-- The outcome of `DeviceManager::FindAndConnect` when the loop found nothing. -/
theorem FindAndConnect_of_none (t : Transport) (m : DeviceManager)
    (h : (scanLoop t (fun _ _ => true) m.devices 0).found = none) :
    m.FindAndConnect t =
      ⟨false, { devices := (scanLoop t (fun _ _ => true) m.devices 0).devices,
                active_device := m.active_device },
       (scanLoop t (fun _ _ => true) m.devices 0).calls⟩ := by
  simp only [DeviceManager.FindAndConnect, connectLoop_eq_scanLoop, h]

/-- The outcome of `ShouldSwitchDevice` when the loop found a position. -/
theorem ShouldSwitchDevice_of_found (t : Transport) (m : DeviceManager) (a : Nat)
    (v : EndgameGearDevice) (i : Nat) (ha : m.active_device = some a)
    (hv : m.devices[a]? = some v)
    (h : (scanLoop t (switchCandidate a v.variant.GetPriority) m.devices 0).found = some i) :
    m.ShouldSwitchDevice t =
      ⟨true,
       { devices := modifyAt EndgameGearDevice.Disconnect
           (scanLoop t (switchCandidate a v.variant.GetPriority) m.devices 0).devices a,
         active_device := some i },
       (scanLoop t (switchCandidate a v.variant.GetPriority) m.devices 0).calls ++
         [⟨a, Method.Disconnect, [Event.Close]⟩]⟩ := by
  simp only [DeviceManager.ShouldSwitchDevice, ha, hv, switchLoop_eq_scanLoop, h]

/-- The outcome of `ShouldSwitchDevice` when the loop found nothing. -/
theorem ShouldSwitchDevice_of_none (t : Transport) (m : DeviceManager) (a : Nat)
    (v : EndgameGearDevice) (ha : m.active_device = some a) (hv : m.devices[a]? = some v)
    (h : (scanLoop t (switchCandidate a v.variant.GetPriority) m.devices 0).found = none) :
    m.ShouldSwitchDevice t =
      ⟨false,
       { devices := (scanLoop t (switchCandidate a v.variant.GetPriority) m.devices 0).devices,
         active_device := some a },
       (scanLoop t (switchCandidate a v.variant.GetPriority) m.devices 0).calls⟩ := by
  simp only [DeviceManager.ShouldSwitchDevice, ha, hv, switchLoop_eq_scanLoop, h]

/-- C6: with active variant `v` (at position `a`) and some other catalog variant of
strictly lower priority value that can connect, `ShouldSwitchDevice` returns
true, the new active device is the first such candidate in catalog order (it is
connected, and its priority value is strictly lower than that of `v`), and `v` is
disconnected afterwards. -/
theorem ShouldSwitchDevice_switches (t : Transport) (m : DeviceManager) (a : Nat)
    (v : EndgameGearDevice) (ha : m.active_device = some a) (hv : m.devices[a]? = some v)
    (hex : ∃ j x, m.devices[j]? = some x ∧ j ≠ a ∧
      x.variant.GetPriority < v.variant.GetPriority ∧ (x.FindAndConnect t).ret = true) :
    ∃ i d, m.devices[i]? = some d ∧ i ≠ a ∧
      d.variant.GetPriority < v.variant.GetPriority ∧ (d.FindAndConnect t).ret = true ∧
      (∀ j x, j < i → m.devices[j]? = some x → j ≠ a →
        x.variant.GetPriority < v.variant.GetPriority → (x.FindAndConnect t).ret = false) ∧
      (m.ShouldSwitchDevice t).ret = true ∧
      (m.ShouldSwitchDevice t).mgr.active_device = some i ∧
      (m.ShouldSwitchDevice t).mgr.devices[i]? = some (d.FindAndConnect t).dev ∧
      EndgameGearDevice.IsConnected (d.FindAndConnect t).dev = true ∧
      (d.FindAndConnect t).dev.variant.GetPriority < v.variant.GetPriority ∧
      (m.ShouldSwitchDevice t).mgr.devices[a]? = some v.Disconnect ∧
      EndgameGearDevice.IsConnected v.Disconnect = false := by
  obtain ⟨j0, x0, hx0, hj0, hp0, hr0⟩ := hex
  cases hf : (scanLoop t (switchCandidate a v.variant.GetPriority) m.devices 0).found with
  | none =>
    have := scanLoop_none t _ m.devices 0 hf j0 x0 hx0
      (by rw [Nat.zero_add]; exact (switchCandidate_iff _ _ _ _).mpr ⟨hj0, hp0⟩)
    rw [hr0] at this
    exact absurd this (by simp)
  | some i =>
    obtain ⟨j, d, hij, hd, hcd, hrd, hdev, hbefore, _⟩ := scanLoop_found t _ m.devices 0 i hf
    rw [Nat.zero_add] at hij
    subst hij
    obtain ⟨hia, hpd⟩ := (switchCandidate_iff _ _ _ _).mp hcd
    have hva : (scanLoop t (switchCandidate a v.variant.GetPriority) m.devices 0).devices[a]?
        = some v := by
      rcases scanLoop_devices t _ m.devices 0 a v hv with h1 | ⟨h1, _⟩
      · exact h1
      · rw [Nat.zero_add] at h1
        exact absurd ((switchCandidate_iff _ _ _ _).mp h1).1 (by simp)
    rw [ShouldSwitchDevice_of_found t m a v i ha hv hf]
    refine ⟨i, d, hd, hia, hpd, hrd, ?_, rfl, rfl, ?_, FindAndConnect_connected t d hrd, ?_, ?_, rfl⟩
    · intro j2 x hj2 hx hja hpx
      exact hbefore j2 x hj2 hx
        (by rw [Nat.zero_add]; exact (switchCandidate_iff _ _ _ _).mpr ⟨hja, hpx⟩)
    · simp only [modifyAt_getElem?, hia, if_false]
      exact hdev
    · rw [FindAndConnect_variant]
      exact hpd
    · simp only [modifyAt_getElem?, if_true, hva, Option.map_some']

/-- C8: when some variant of the catalog can connect, `DeviceManager::FindAndConnect`
returns true and the active device is the first variant in catalog order whose
`FindAndConnect` succeeds: it is connected, every variant before it was asked to
connect and failed, no variant after it was asked, and every variant after it
is left as it was. -/
theorem FindAndConnect_first_match (t : Transport) (m : DeviceManager)
    (hex : ∃ d ∈ m.devices, (d.FindAndConnect t).ret = true) :
    ∃ i d, m.devices[i]? = some d ∧ (d.FindAndConnect t).ret = true ∧
      (∀ j x, j < i → m.devices[j]? = some x → (x.FindAndConnect t).ret = false) ∧
      (m.FindAndConnect t).ret = true ∧
      (m.FindAndConnect t).mgr.active_device = some i ∧
      (m.FindAndConnect t).mgr.devices[i]? = some (d.FindAndConnect t).dev ∧
      EndgameGearDevice.IsConnected (d.FindAndConnect t).dev = true ∧
      (∀ j x, j < i → m.devices[j]? = some x →
        ∃ c ∈ (m.FindAndConnect t).calls, c.index = j ∧ c.method = Method.FindAndConnect ∧
          c.trace = (x.FindAndConnect t).trace) ∧
      (∀ c ∈ (m.FindAndConnect t).calls, c.method = Method.FindAndConnect ∧ c.index ≤ i) ∧
      (∀ j, i < j → (m.FindAndConnect t).mgr.devices[j]? = m.devices[j]?) := by
  obtain ⟨x0, hmem, hr0⟩ := hex
  obtain ⟨j0, hx0⟩ := List.getElem?_of_mem hmem
  cases hf : (scanLoop t (fun _ _ => true) m.devices 0).found with
  | none =>
    have := scanLoop_none t _ m.devices 0 hf j0 x0 hx0 rfl
    rw [hr0] at this
    exact absurd this (by simp)
  | some i =>
    obtain ⟨j, d, hij, hd, _, hrd, hdev, hbefore, hafter⟩ := scanLoop_found t _ m.devices 0 i hf
    rw [Nat.zero_add] at hij
    subst hij
    rw [FindAndConnect_of_found t m i hf]
    refine ⟨i, d, hd, hrd, ?_, rfl, rfl, hdev, FindAndConnect_connected t d hrd, ?_, ?_, hafter⟩
    · intro j2 x hj2 hx
      exact hbefore j2 x hj2 hx rfl
    · intro j2 x hj2 hx
      obtain ⟨c, hc, hci, hcm, hct⟩ := scanLoop_tried t _ m.devices 0 j2 x hx rfl
        (by intro i2 hi2; rw [hf] at hi2; simp only [Option.some.injEq] at hi2; omega)
      exact ⟨c, hc, by omega, hcm, hct⟩
    · intro c hc
      obtain ⟨hcm, _, _, _, _, _, _, hle⟩ := scanLoop_calls t _ m.devices 0 c hc
      exact ⟨hcm, hle i hf⟩

/-- C9: with no active device and no variant connected, on a transport that
fails `open` for every descriptor of every supported product id of every variant,
`DeviceManager::FindAndConnect` returns false and the manager stays in the
no-active-device state: `IsConnected()` is false and no variant is connected (the
manager is exactly as before). -/
theorem FindAndConnect_all_locked (t : Transport) (m : DeviceManager)
    (hnone : m.active_device = none)
    (hclosed : ∀ d ∈ m.devices, EndgameGearDevice.IsConnected d = false)
    (hlocked : ∀ d ∈ m.devices, ∀ pid ∈ d.variant.GetSupportedPIDs,
      ∀ info ∈ t.enumerate VID pid, t.openOk info.path = false) :
    (m.FindAndConnect t).ret = false ∧ (m.FindAndConnect t).mgr.active_device = none ∧
      (m.FindAndConnect t).mgr.IsConnected = false ∧
      (∀ d ∈ (m.FindAndConnect t).mgr.devices, EndgameGearDevice.IsConnected d = false) ∧
      (m.FindAndConnect t).mgr = m := by
  have hcand : ∀ j x, m.devices[j]? = some x → (fun _ _ => true) (0 + j) x = true →
      (x.FindAndConnect t).ret = false := by
    intro j x hx _
    exact FindAndConnect_locked t x (hlocked x (List.getElem?_mem hx))
  obtain ⟨hf, hdev⟩ := scanLoop_unchanged t (fun _ _ => true) m.devices 0 hcand
  rw [FindAndConnect_of_none t m hf]
  have hm : ({ devices := (scanLoop t (fun _ _ => true) m.devices 0).devices,
               active_device := m.active_device } : DeviceManager) = m := by
    rw [hdev]
  rw [hm]
  exact ⟨rfl, hnone, by simp [DeviceManager.IsConnected, hnone], hclosed, rfl⟩

/-- The catalog of the sample manager as constructed. -/
theorem sampleManager_devices :
    sampleManager.devices = [EndgameGearDevice.new sampleOP1W, EndgameGearDevice.new sampleXM2W,
      EndgameGearDevice.new sampleDongle] := rfl

/-- The catalog of the sample manager once the priority 2 variant is active. -/
theorem sampleActiveXM2W_devices :
    sampleActiveXM2W.devices = [EndgameGearDevice.new sampleOP1W, sampleXM2WConnected,
      EndgameGearDevice.new sampleDongle] := rfl

/-- Witness for C6: priority 2 is active, priority 1 becomes connectable;
`ShouldSwitchDevice` returns true, priority 1 (position 0) is active and is the
only connected variant. -/
theorem ShouldSwitchDevice_switches_witness :
    sampleActiveXM2W.active_device = some 1 ∧
      (sampleActiveXM2W.ShouldSwitchDevice (samplePlugged [0x1982, 0x1970])).ret = true ∧
      (sampleActiveXM2W.ShouldSwitchDevice (samplePlugged [0x1982, 0x1970])).mgr.active_device
        = some 0 ∧
      (sampleActiveXM2W.ShouldSwitchDevice (samplePlugged [0x1982, 0x1970])).mgr.connectedPositions
        = [0] := by
  obtain ⟨i, d, -, -, -, -, -, hret, -⟩ :=
    ShouldSwitchDevice_switches (samplePlugged [0x1982, 0x1970]) sampleActiveXM2W 1
      sampleXM2WConnected (by decide) (by rw [sampleActiveXM2W_devices]; rfl)
      ⟨0, EndgameGearDevice.new sampleOP1W, by rw [sampleActiveXM2W_devices]; rfl,
        by decide, by decide, by decide⟩
  exact ⟨by decide, hret, by decide, by decide⟩

/-- Witness for C8: only the priority 2 variant is plugged in; it becomes active. -/
theorem FindAndConnect_first_match_witness :
    (sampleManager.FindAndConnect (samplePlugged [0x1982])).ret = true ∧
      (sampleManager.FindAndConnect (samplePlugged [0x1982])).mgr.active_device = some 1 ∧
      (sampleManager.FindAndConnect (samplePlugged [0x1982])).mgr.connectedPositions = [1] := by
  obtain ⟨i, d, -, -, -, hret, -⟩ :=
    FindAndConnect_first_match (samplePlugged [0x1982]) sampleManager
      ⟨EndgameGearDevice.new sampleXM2W,
        by rw [sampleManager_devices]; exact List.mem_cons_of_mem _ (List.mem_cons_self _ _),
        by decide⟩
  exact ⟨hret, by decide, by decide⟩

/-- Witness for C9: every descriptor is enumerated and every open fails. -/
theorem FindAndConnect_all_locked_witness :
    (sampleManager.FindAndConnect sampleLocked).ret = false ∧
      (sampleManager.FindAndConnect sampleLocked).mgr.active_device = none ∧
      (sampleManager.FindAndConnect sampleLocked).mgr.IsConnected = false ∧
      (sampleManager.FindAndConnect sampleLocked).mgr.connectedPositions = [] := by
  have h := FindAndConnect_all_locked sampleLocked sampleManager (by decide)
    (by
      intro d hd
      rw [sampleManager_devices] at hd
      simp only [List.mem_cons, List.mem_singleton, List.not_mem_nil, or_false] at hd
      rcases hd with rfl | rfl | rfl <;> rfl)
    (by intro d _ pid _ info _; rfl)
  exact ⟨h.1, h.2.1, h.2.2.1, by decide⟩

/-! ## One connection at a time -/

/-- After a scan, a connected device is one that was there before, or it is the
position found. -/
theorem scanLoop_connected (t : Transport) (cand : Nat → EndgameGearDevice → Bool)
    (l : List EndgameGearDevice) (k : Nat) :
    ∀ j y, (scanLoop t cand l k).devices[j]? = some y →
      EndgameGearDevice.IsConnected y = true →
      l[j]? = some y ∨ (scanLoop t cand l k).found = some (k + j) := by
  intro j y hy hcon
  have hlt : j < l.length := by
    have h1 := (List.getElem?_eq_some.mp hy).1
    rw [scanLoop_length] at h1
    exact h1
  obtain ⟨x, hx⟩ : ∃ x, l[j]? = some x := ⟨l[j], List.getElem?_eq_getElem hlt⟩
  rcases scanLoop_devices t cand l k j x hx with h1 | ⟨hc, h1, h2⟩
  · left
    rw [hx, ← h1, hy]
  · rw [hy, Option.some.injEq] at h1
    cases hr : (x.FindAndConnect t).ret with
    | true => exact Or.inr (h2 hr)
    | false =>
      left
      rw [hx, h1, FindAndConnect_failed t x hr]

/-- A disconnected device is not connected. -/
theorem Disconnect_not_connected (d : EndgameGearDevice) :
    EndgameGearDevice.IsConnected d.Disconnect = false := rfl

/-- The call `DeviceManager::FindAndConnect` from the no-active-device state keeps every
connected device the active one. -/
theorem FindAndConnect_single (t : Transport) (m : DeviceManager) (hinv : m.SingleConnection)
    (hnone : m.active_device = none) : (m.FindAndConnect t).mgr.SingleConnection := by
  have key := scanLoop_connected t (fun _ _ => true) m.devices 0
  intro j y hy hcon
  cases hf : (scanLoop t (fun _ _ => true) m.devices 0).found with
  | none =>
    rw [FindAndConnect_of_none t m hf] at hy ⊢
    rcases key j y hy hcon with h1 | h1
    · exact hinv j y h1 hcon
    · rw [hf] at h1
      exact absurd h1 (by simp)
  | some i =>
    rw [FindAndConnect_of_found t m i hf] at hy ⊢
    rcases key j y hy hcon with h1 | h1
    · have := hinv j y h1 hcon
      rw [hnone] at this
      exact absurd this (by simp)
    · rw [hf, Nat.zero_add] at h1
      exact h1

/-- The call `ShouldSwitchDevice` keeps every connected device the active one. -/
theorem ShouldSwitchDevice_single (t : Transport) (m : DeviceManager)
    (hinv : m.SingleConnection) : (m.ShouldSwitchDevice t).mgr.SingleConnection := by
  cases ha : m.active_device with
  | none =>
    have e : m.ShouldSwitchDevice t = ⟨false, m, []⟩ := by
      simp [DeviceManager.ShouldSwitchDevice, ha]
    rw [e]
    exact hinv
  | some a =>
    cases hv : m.devices[a]? with
    | none =>
      have e : m.ShouldSwitchDevice t = ⟨false, m, []⟩ := by
        simp [DeviceManager.ShouldSwitchDevice, ha, hv]
      rw [e]
      exact hinv
    | some v =>
      have key := scanLoop_connected t (switchCandidate a v.variant.GetPriority) m.devices 0
      intro j y hy hcon
      cases hf : (scanLoop t (switchCandidate a v.variant.GetPriority) m.devices 0).found with
      | none =>
        rw [ShouldSwitchDevice_of_none t m a v ha hv hf] at hy ⊢
        rcases key j y hy hcon with h1 | h1
        · rw [← ha]
          exact hinv j y h1 hcon
        · rw [hf] at h1
          exact absurd h1 (by simp)
      | some i =>
        rw [ShouldSwitchDevice_of_found t m a v i ha hv hf] at hy ⊢
        simp only [modifyAt_getElem?] at hy
        by_cases hja : j = a
        · simp only [hja, if_true, Option.map_eq_some'] at hy
          obtain ⟨x, _, hxy⟩ := hy
          rw [← hxy, Disconnect_not_connected] at hcon
          exact absurd hcon (by simp)
        · simp only [hja, if_false] at hy
          rcases key j y hy hcon with h1 | h1
          · have := hinv j y h1 hcon
            rw [ha, Option.some.injEq] at this
            exact absurd this.symm hja
          · rw [hf, Nat.zero_add] at h1
            exact h1

/-- The call `DeviceManager::Disconnect` keeps every connected device the active one. -/
theorem Disconnect_single (m : DeviceManager) (hinv : m.SingleConnection) :
    m.Disconnect.mgr.SingleConnection := by
  cases ha : m.active_device with
  | none =>
    have e : m.Disconnect = ⟨(), m, []⟩ := by simp [DeviceManager.Disconnect, ha]
    rw [e]
    exact hinv
  | some a =>
    have e : m.Disconnect =
        ⟨(), { devices := modifyAt EndgameGearDevice.Disconnect m.devices a,
               active_device := none }, [⟨a, Method.Disconnect, [Event.Close]⟩]⟩ := by
      simp [DeviceManager.Disconnect, ha]
    rw [e]
    intro j y hy hcon
    simp only [modifyAt_getElem?] at hy
    by_cases hja : j = a
    · simp only [hja, if_true, Option.map_eq_some'] at hy
      obtain ⟨x, _, hxy⟩ := hy
      rw [← hxy, Disconnect_not_connected] at hcon
      exact absurd hcon (by simp)
    · simp only [hja, if_false] at hy
      have := hinv j y hy hcon
      rw [ha, Option.some.injEq] at this
      exact absurd this.symm hja

/-- The call `DeviceManager::ReadBattery` keeps every connected device the active one. -/
theorem ReadBattery_single (t : Transport) (m : DeviceManager) (hinv : m.SingleConnection) :
    (m.ReadBattery t).mgr.SingleConnection := by
  cases ha : m.active_device with
  | none =>
    have e : m.ReadBattery t = ⟨{}, m, []⟩ := by simp [DeviceManager.ReadBattery, ha]
    rw [e]
    exact hinv
  | some a =>
    cases hv : m.devices[a]? with
    | none =>
      have e : m.ReadBattery t = ⟨{}, m, []⟩ := by simp [DeviceManager.ReadBattery, ha, hv]
      rw [e]
      exact hinv
    | some v =>
      have e : m.ReadBattery t =
          ⟨(v.ReadBattery t).ret,
           { m with devices := modifyAt (fun _ => (v.ReadBattery t).dev) m.devices a },
           [⟨a, Method.ReadBattery, (v.ReadBattery t).trace⟩]⟩ := by
        simp [DeviceManager.ReadBattery, ha, hv]
      rw [e]
      intro j y hy hcon
      simp only [modifyAt_getElem?] at hy
      by_cases hja : j = a
      · show m.active_device = some j
        rw [ha, hja]
      · simp only [hja, if_false] at hy
        exact hinv j y hy hcon

/-- A newly constructed manager has no connected device. -/
theorem new_single (variants : List Variant) : (DeviceManager.new variants).SingleConnection := by
  intro j y hy hcon
  have hmem : y ∈ (DeviceManager.new variants).devices := List.getElem?_mem hy
  have hmem2 : y ∈ variants.map EndgameGearDevice.new :=
    (List.perm_insertionSort _ _).mem_iff.mp hmem
  obtain ⟨v, _, rfl⟩ := List.mem_map.mp hmem2
  exact absurd hcon (by simp [EndgameGearDevice.new, EndgameGearDevice.IsConnected, HIDDevice.IsOpen])

/-- Along a sequence of calls that uses `FindAndConnect` only as the entry path,
every connected device stays the active one. -/
theorem run_single (actions : List Action) :
    ∀ m : DeviceManager, m.SingleConnection → m.entryOnly actions = true →
      (m.run actions).SingleConnection := by
  induction actions with
  | nil => intro m hinv _; exact hinv
  | cons act rest ih =>
    intro m hinv hentry
    cases act with
    | FindAndConnect t =>
      simp only [DeviceManager.entryOnly, Bool.and_eq_true, Option.isNone_iff_eq_none] at hentry
      exact ih _ (FindAndConnect_single t m hinv hentry.1) hentry.2
    | Disconnect => exact ih _ (Disconnect_single m hinv) hentry
    | ShouldSwitchDevice t => exact ih _ (ShouldSwitchDevice_single t m hinv) hentry
    | ReadBattery t => exact ih _ (ReadBattery_single t m hinv) hentry

/-- When every connected device is the active one, at most one is connected. -/
theorem atMostOne_of_single (m : DeviceManager) (hinv : m.SingleConnection) :
    m.AtMostOneConnected := by
  intro i j di dj hi hj hci hcj
  have h1 := hinv i di hi hci
  have h2 := hinv j dj hj hcj
  rw [h1, Option.some.injEq] at h2
  exact h2

/-- C10 as stated fails: calling `FindAndConnect` a second time, while the
priority 2 variant is active and the priority 1 variant has become connectable,
leaves two variants connected. -/
theorem second_FindAndConnect_two_connected :
    ¬ (sampleManager.run [Action.FindAndConnect (samplePlugged [0x1982]),
        Action.FindAndConnect (samplePlugged [0x1982, 0x1970])]).AtMostOneConnected := by
  intro h
  have := h 0 1 sampleOP1WConnected sampleXM2WConnected rfl rfl rfl rfl
  exact absurd this (by decide)

/-- C10 amended: in every state reached from a newly constructed manager by a
sequence of `FindAndConnect`, `Disconnect`, `ShouldSwitchDevice` and `ReadBattery`
calls, under any transport behaviour, in which `FindAndConnect` is only called
while there is no active device, a connected variant is the active one and at
most one variant is connected. -/
theorem reachable_single_connection (variants : List Variant) (actions : List Action)
    (hentry : (DeviceManager.new variants).entryOnly actions = true) :
    ((DeviceManager.new variants).run actions).SingleConnection ∧
      ((DeviceManager.new variants).run actions).AtMostOneConnected :=
  ⟨run_single actions _ (new_single variants) hentry,
   atMostOne_of_single _ (run_single actions _ (new_single variants) hentry)⟩

/-- Witness for C10 amended: connect, read, switch, disconnect. -/
theorem reachable_single_connection_witness :
    (sampleManager.run [Action.FindAndConnect (samplePlugged [0x1982]),
        Action.ReadBattery (samplePlugged [0x1982]),
        Action.ShouldSwitchDevice (samplePlugged [0x1982, 0x1970]),
        Action.Disconnect]).SingleConnection ∧
      (sampleManager.run [Action.FindAndConnect (samplePlugged [0x1982]),
        Action.ReadBattery (samplePlugged [0x1982]),
        Action.ShouldSwitchDevice (samplePlugged [0x1982, 0x1970]),
        Action.Disconnect]).AtMostOneConnected :=
  reachable_single_connection [sampleOP1W, sampleXM2W, sampleDongle] _ (by decide)

/-! ## Catalog order, shape of a status, manager queries -/

/-- C12: whatever the priorities and the order in which the variants are pushed,
the catalog after construction is a permutation of the pushed (freshly
constructed) devices and is non-decreasing in priority value; no device is
active. -/
theorem new_catalog_sorted (variants : List Variant) :
    List.Perm (DeviceManager.new variants).devices (variants.map EndgameGearDevice.new) ∧
      List.Pairwise (fun a b => a.variant.GetPriority ≤ b.variant.GetPriority)
        (DeviceManager.new variants).devices ∧
      (DeviceManager.new variants).active_device = none := by
  haveI : IsTotal EndgameGearDevice
      (fun a b => a.variant.GetPriority ≤ b.variant.GetPriority) :=
    ⟨fun a b => le_total a.variant.GetPriority b.variant.GetPriority⟩
  haveI : IsTrans EndgameGearDevice
      (fun a b => a.variant.GetPriority ≤ b.variant.GetPriority) :=
    ⟨fun _ _ _ h1 h2 => le_trans h1 h2⟩
  exact ⟨List.perm_insertionSort _ _, List.sorted_insertionSort _ _, rfl⟩

/-- The status returned by `EndgameGearDevice::ReadBattery` is the sentinel or a
full reading. -/
theorem ReadBattery_ret_shape (t : Transport) (d : EndgameGearDevice) :
    (d.ReadBattery t).ret = { percentage := -1, is_charging := false, is_wireless := false } ∨
      (0 ≤ (d.ReadBattery t).ret.percentage ∧ (d.ReadBattery t).ret.percentage ≤ 100 ∧
        (d.ReadBattery t).ret.is_charging = !(d.ReadBattery t).ret.is_wireless) := by
  rw [ReadBattery_unfold, ParseBatteryResponse_byte d _ (reply_getD_lt t d 1 16)]
  cases d.IsConnected <;> cases sendOk t d 0 <;> cases readOk t d 0 <;> cases sendOk t d 1 <;>
    cases readOk t d 1 <;> cases echoOk t d <;> simp

/-- With no active device `DeviceManager::ReadBattery` returns the sentinel and
calls nothing. -/
theorem manager_ReadBattery_none (t : Transport) (m : DeviceManager)
    (ha : m.active_device = none) : m.ReadBattery t = ⟨{}, m, []⟩ := by
  simp [DeviceManager.ReadBattery, ha]

/-- With an active device `DeviceManager::ReadBattery` is the call on that device. -/
theorem manager_ReadBattery_active (t : Transport) (m : DeviceManager) (a : Nat)
    (v : EndgameGearDevice) (ha : m.active_device = some a) (hv : m.devices[a]? = some v) :
    m.ReadBattery t =
      ⟨(v.ReadBattery t).ret,
       { m with devices := modifyAt (fun _ => (v.ReadBattery t).dev) m.devices a },
       [⟨a, Method.ReadBattery, (v.ReadBattery t).trace⟩]⟩ := by
  simp [DeviceManager.ReadBattery, ha, hv]

/-- C13: every status returned by `EndgameGearDevice::ReadBattery` or by
`DeviceManager::ReadBattery`, in any state and on any transport, is the
all-sentinel value or is fully valid: percentage in `[0, 100]` and exactly one of
`is_charging`, `is_wireless` true. -/
theorem ReadBattery_sentinel_or_valid (t : Transport) (d : EndgameGearDevice)
    (m : DeviceManager) :
    ((d.ReadBattery t).ret = { percentage := -1, is_charging := false, is_wireless := false } ∨
      (0 ≤ (d.ReadBattery t).ret.percentage ∧ (d.ReadBattery t).ret.percentage ≤ 100 ∧
        (d.ReadBattery t).ret.is_charging = !(d.ReadBattery t).ret.is_wireless)) ∧
    ((m.ReadBattery t).ret = { percentage := -1, is_charging := false, is_wireless := false } ∨
      (0 ≤ (m.ReadBattery t).ret.percentage ∧ (m.ReadBattery t).ret.percentage ≤ 100 ∧
        (m.ReadBattery t).ret.is_charging = !(m.ReadBattery t).ret.is_wireless)) := by
  refine ⟨ReadBattery_ret_shape t d, ?_⟩
  cases ha : m.active_device with
  | none =>
    rw [manager_ReadBattery_none t m ha]
    exact Or.inl rfl
  | some a =>
    cases hv : m.devices[a]? with
    | none =>
      have e : m.ReadBattery t = ⟨{}, m, []⟩ := by simp [DeviceManager.ReadBattery, ha, hv]
      rw [e]
      exact Or.inl rfl
    | some v =>
      rw [manager_ReadBattery_active t m a v ha hv]
      exact ReadBattery_ret_shape t v

/-- C14: with no active device the queries of `DeviceManager` return the unknown
defaults (`IsConnected()` false, `ReadBattery()` the sentinel with no call made and
nothing changed, `GetDeviceName()` and `GetConnectionMode()` "Unknown"); with
active device `v` each query returns what the same query on `v` returns. -/
theorem manager_queries_delegate (t : Transport) (m : DeviceManager) :
    (m.active_device = none →
      m.IsConnected = false ∧
      (m.ReadBattery t).ret = { percentage := -1, is_charging := false, is_wireless := false } ∧
      (m.ReadBattery t).calls = [] ∧ (m.ReadBattery t).mgr = m ∧
      m.GetDeviceName = "Unknown" ∧ m.GetConnectionMode = "Unknown") ∧
    (∀ (a : Nat) (v : EndgameGearDevice), m.active_device = some a → m.devices[a]? = some v →
      m.IsConnected = EndgameGearDevice.IsConnected v ∧
      (m.ReadBattery t).ret = (v.ReadBattery t).ret ∧
      (m.ReadBattery t).calls = [⟨a, Method.ReadBattery, (v.ReadBattery t).trace⟩] ∧
      (m.ReadBattery t).mgr.devices[a]? = some (v.ReadBattery t).dev ∧
      (m.ReadBattery t).mgr.active_device = some a ∧
      m.GetDeviceName = v.variant.GetDeviceName ∧
      m.GetConnectionMode = v.GetConnectionMode) := by
  constructor
  · intro ha
    rw [manager_ReadBattery_none t m ha]
    simp [DeviceManager.IsConnected, DeviceManager.GetDeviceName,
      DeviceManager.GetConnectionMode, ha]
  · intro a v ha hv
    rw [manager_ReadBattery_active t m a v ha hv]
    refine ⟨by simp [DeviceManager.IsConnected, ha, hv], rfl, rfl, ?_, ha,
      by simp [DeviceManager.GetDeviceName, ha, hv],
      by simp [DeviceManager.GetConnectionMode, ha, hv]⟩
    simp only [modifyAt_getElem?, if_true, hv, Option.map_some']

/-- Witness for C14: the sample manager with the priority 2 variant active. -/
theorem manager_queries_delegate_witness :
    sampleActiveXM2W.IsConnected = true ∧
      (sampleActiveXM2W.ReadBattery (samplePlugged [0x1982])).ret
        = (sampleXM2WConnected.ReadBattery (samplePlugged [0x1982])).ret ∧
      sampleActiveXM2W.GetDeviceName = "XM2w 4k v2" ∧
      sampleActiveXM2W.GetConnectionMode = "Wireless" := by
  have h := (manager_queries_delegate (samplePlugged [0x1982]) sampleActiveXM2W).2 1
    sampleXM2WConnected (by decide) (by rw [sampleActiveXM2W_devices]; rfl)
  exact ⟨h.1.trans (by decide), h.2.1, h.2.2.2.2.2.1.trans (by decide),
    h.2.2.2.2.2.2.trans (by decide)⟩

/-- The outcome of `DeviceManager::Disconnect` with no active device. -/
theorem manager_Disconnect_none (m : DeviceManager) (ha : m.active_device = none) :
    m.Disconnect = ⟨(), m, []⟩ := by
  simp [DeviceManager.Disconnect, ha]

/-- The outcome of `DeviceManager::Disconnect` with an active device. -/
theorem manager_Disconnect_active (m : DeviceManager) (a : Nat)
    (ha : m.active_device = some a) :
    m.Disconnect =
      ⟨(), { devices := modifyAt EndgameGearDevice.Disconnect m.devices a,
             active_device := none }, [⟨a, Method.Disconnect, [Event.Close]⟩]⟩ := by
  simp [DeviceManager.Disconnect, ha]

/-- C15: `DeviceManager::Disconnect` with active device `v` disconnects `v` (not
connected, matched product id 0), touches no other device and leaves no active
device; with no active device it changes nothing; so a second `Disconnect` yields
the same state as the first. -/
theorem manager_Disconnect_idempotent (m : DeviceManager) :
    (∀ (a : Nat) (v : EndgameGearDevice), m.active_device = some a → m.devices[a]? = some v →
      m.Disconnect.mgr.active_device = none ∧
      m.Disconnect.mgr.devices[a]? = some v.Disconnect ∧
      EndgameGearDevice.IsConnected v.Disconnect = false ∧ v.Disconnect.current_pid = 0 ∧
      (∀ j, j ≠ a → m.Disconnect.mgr.devices[j]? = m.devices[j]?)) ∧
    (m.active_device = none → m.Disconnect.mgr = m) ∧
    m.Disconnect.mgr.Disconnect.mgr = m.Disconnect.mgr := by
  refine ⟨?_, ?_, ?_⟩
  · intro a v ha hv
    rw [manager_Disconnect_active m a ha]
    refine ⟨rfl, ?_, rfl, rfl, ?_⟩
    · simp only [modifyAt_getElem?, if_true, hv, Option.map_some']
    · intro j hj
      simp only [modifyAt_getElem?, hj, if_false]
  · intro ha
    rw [manager_Disconnect_none m ha]
  · cases ha : m.active_device with
    | none =>
      rw [manager_Disconnect_none m ha, manager_Disconnect_none m ha]
    | some a =>
      rw [manager_Disconnect_active m a ha]
      show (DeviceManager.Disconnect
        { devices := modifyAt EndgameGearDevice.Disconnect m.devices a,
          active_device := none }).mgr = _
      rw [manager_Disconnect_none _ rfl]

/-- Witness for C15: disconnecting the sample manager with the priority 2 variant
active leaves nothing connected and no active device. -/
theorem manager_Disconnect_idempotent_witness :
    sampleActiveXM2W.Disconnect.mgr.active_device = none ∧
      sampleActiveXM2W.Disconnect.mgr.devices[1]? = some sampleXM2WConnected.Disconnect ∧
      sampleActiveXM2W.Disconnect.mgr.connectedPositions = [] := by
  have h := (manager_Disconnect_idempotent sampleActiveXM2W).1 1 sampleXM2WConnected
    (by decide) (by rw [sampleActiveXM2W_devices]; rfl)
  exact ⟨h.1, h.2.1, by decide⟩

/-! ## Connecting one device, in detail -/

/-- What the descriptor scan does, against the first descriptor that matches and
opens. -/
theorem scanDescriptors_find (t : Transport) (pid : Nat) (infos : List DeviceInfo)
    (d : EndgameGearDevice) :
    (∀ info, infos.find? (opens t) = some info →
      (scanDescriptors t pid infos d).ret = true ∧
      (scanDescriptors t pid infos d).dev.current_pid = pid ∧
      (scanDescriptors t pid infos d).dev.device.handle = some info.path) ∧
    (infos.find? (opens t) = none →
      (scanDescriptors t pid infos d).ret = false ∧
      (scanDescriptors t pid infos d).dev.current_pid = d.current_pid) := by
  induction infos generalizing d with
  | nil =>
    refine ⟨fun info h => ?_, fun _ => ⟨rfl, rfl⟩⟩
    simp at h
  | cons x rest ih =>
    by_cases hm : x.usage_page = USAGE_PAGE ∧ x.usage = USAGE
    · have hm2 : x.usage_page = 0xFF01 ∧ x.usage = 0x0002 := hm
      cases ho : t.openOk x.path
      · have hx : opens t x = false := by simp [opens, ho]
        rw [scanDescriptors_refused t pid x rest d hm ho, List.find?_cons_of_neg _ (by simp [hx])]
        exact ih d
      · have hx : opens t x = true := by simp [opens, ho, hm2.1, hm2.2]
        rw [scanDescriptors_open t pid x rest d hm ho, List.find?_cons_of_pos _ hx]
        refine ⟨fun info h => ?_, fun h => absurd h (by simp)⟩
        simp only [Option.some.injEq] at h
        subst h
        exact ⟨rfl, rfl, rfl⟩
    · have hx : opens t x = false := by
        have hm2 : ¬(x.usage_page = 0xFF01 ∧ x.usage = 0x0002) := hm
        cases h1 : opens t x with
        | false => rfl
        | true =>
          simp only [opens, Bool.and_eq_true, decide_eq_true_eq] at h1
          exact absurd ⟨h1.1.1, h1.1.2⟩ hm2
      rw [scanDescriptors_skip t pid x rest d hm, List.find?_cons_of_neg _ (by simp [hx])]
      exact ih d

/-- Every `Open` made by the descriptor scan is on a descriptor with the expected
usage page and usage, and reports what the transport answered. -/
theorem scanDescriptors_opens (t : Transport) (pid : Nat) (infos : List DeviceInfo)
    (d : EndgameGearDevice) :
    ∀ e ∈ (scanDescriptors t pid infos d).trace, ∃ info ∈ infos,
      e = Event.Open info.path (t.openOk info.path) ∧
      info.usage_page = 0xFF01 ∧ info.usage = 0x0002 := by
  induction infos generalizing d with
  | nil => intro e he; simp [scanDescriptors] at he
  | cons x rest ih =>
    intro e he
    by_cases hm : x.usage_page = USAGE_PAGE ∧ x.usage = USAGE
    · cases ho : t.openOk x.path
      · rw [scanDescriptors_refused t pid x rest d hm ho] at he
        rcases List.mem_cons.mp he with rfl | he2
        · exact ⟨x, List.mem_cons_self _ _, by rw [ho], hm.1, hm.2⟩
        · obtain ⟨info, hi, h2⟩ := ih _ e he2
          exact ⟨info, List.mem_cons_of_mem _ hi, h2⟩
      · rw [scanDescriptors_open t pid x rest d hm ho] at he
        rcases List.mem_singleton.mp he with rfl
        exact ⟨x, List.mem_cons_self _ _, by rw [ho], hm.1, hm.2⟩
    · rw [scanDescriptors_skip t pid x rest d hm] at he
      obtain ⟨info, hi, h2⟩ := ih d e he
      exact ⟨info, List.mem_cons_of_mem _ hi, h2⟩

/-- What `FindAndConnectWithPID` does, against the first descriptor that matches
and opens. -/
theorem FindAndConnectWithPID_find (t : Transport) (d : EndgameGearDevice) (pid : Nat) :
    (∀ info, firstOpening t pid = some info →
      (d.FindAndConnectWithPID t pid).ret = true ∧
      (d.FindAndConnectWithPID t pid).dev.current_pid = pid ∧
      (d.FindAndConnectWithPID t pid).dev.device.handle = some info.path) ∧
    (firstOpening t pid = none →
      (d.FindAndConnectWithPID t pid).ret = false ∧
      (d.FindAndConnectWithPID t pid).dev.current_pid = d.current_pid) :=
  scanDescriptors_find t pid (t.enumerate VID pid) d

/-- What the product id loop does, against the first product id for which a
descriptor matches and opens. -/
theorem tryPIDs_find (t : Transport) (pids : List Nat) (d : EndgameGearDevice) :
    (∀ pid, pids.find? (fun p => (firstOpening t p).isSome) = some pid →
      (tryPIDs t pids d).ret = true ∧ (tryPIDs t pids d).dev.current_pid = pid ∧
      ∃ info, firstOpening t pid = some info ∧
        (tryPIDs t pids d).dev.device.handle = some info.path) ∧
    (pids.find? (fun p => (firstOpening t p).isSome) = none →
      (tryPIDs t pids d).ret = false ∧ (tryPIDs t pids d).dev.current_pid = d.current_pid) := by
  induction pids generalizing d with
  | nil =>
    refine ⟨fun pid h => ?_, fun _ => ⟨rfl, rfl⟩⟩
    simp at h
  | cons p rest ih =>
    cases hf : firstOpening t p with
    | none =>
      obtain ⟨hr, hp⟩ := (FindAndConnectWithPID_find t d p).2 hf
      rw [tryPIDs_miss t p rest d hr, List.find?_cons_of_neg _ (by simp [hf])]
      obtain ⟨ih1, ih2⟩ := ih (d.FindAndConnectWithPID t p).dev
      exact ⟨ih1, fun h => ⟨(ih2 h).1, (ih2 h).2.trans hp⟩⟩
    | some info =>
      obtain ⟨hr, hp, hh⟩ := (FindAndConnectWithPID_find t d p).1 info hf
      rw [tryPIDs_hit t p rest d hr, List.find?_cons_of_pos _ (by simp [hf])]
      refine ⟨fun pid h => ?_, fun h => absurd h (by simp)⟩
      simp only [Option.some.injEq] at h
      subst h
      exact ⟨rfl, hp, info, hf, hh⟩

/-- Every `Open` made by the product id loop is on a descriptor, enumerated for one
of the product ids, with the expected usage page and usage. -/
theorem tryPIDs_opens (t : Transport) (pids : List Nat) (d : EndgameGearDevice) :
    ∀ path ok, Event.Open path ok ∈ (tryPIDs t pids d).trace →
      ∃ pid ∈ pids, ∃ info ∈ t.enumerate 0x3367 pid,
        info.path = path ∧ t.openOk path = ok ∧
        info.usage_page = 0xFF01 ∧ info.usage = 0x0002 := by
  induction pids generalizing d with
  | nil => intro path ok he; simp [tryPIDs] at he
  | cons p rest ih =>
    intro path ok he
    have hhead : Event.Open path ok ∈ (d.FindAndConnectWithPID t p).trace →
        ∃ pid ∈ p :: rest, ∃ info ∈ t.enumerate 0x3367 pid,
          info.path = path ∧ t.openOk path = ok ∧
          info.usage_page = 0xFF01 ∧ info.usage = 0x0002 := by
      intro h1
      rcases List.mem_cons.mp h1 with h2 | h2
      · exact absurd h2 (by simp)
      · obtain ⟨info, hi, he2, hu1, hu2⟩ := scanDescriptors_opens t p _ d _ h2
        simp only [Event.Open.injEq] at he2
        exact ⟨p, List.mem_cons_self _ _, info, hi, he2.1.symm, by rw [he2.1]; exact he2.2.symm,
          hu1, hu2⟩
    cases hr : (d.FindAndConnectWithPID t p).ret
    · rw [tryPIDs_miss t p rest d hr] at he
      rcases List.mem_append.mp he with h1 | h1
      · exact hhead h1
      · obtain ⟨pid, hp, h2⟩ := ih _ path ok h1
        exact ⟨pid, List.mem_cons_of_mem _ hp, h2⟩
    · rw [tryPIDs_hit t p rest d hr] at he
      exact hhead he

/-- Some product id has a first opening descriptor exactly when some enumerated
descriptor of a supported product id matches and opens. -/
theorem firstMatchingPID_isSome_iff (t : Transport) (d : EndgameGearDevice) :
    (firstMatchingPID t d).isSome = true ↔
      ∃ pid ∈ d.variant.GetSupportedPIDs, ∃ info ∈ t.enumerate 0x3367 pid,
        info.usage_page = 0xFF01 ∧ info.usage = 0x0002 ∧ t.openOk info.path = true := by
  simp only [firstMatchingPID, firstOpening, List.find?_isSome, opens, Bool.and_eq_true,
    decide_eq_true_eq]
  constructor
  · rintro ⟨pid, hp, info, hi, ⟨h1, h2⟩, h3⟩
    exact ⟨pid, hp, info, hi, h1, h2, h3⟩
  · rintro ⟨pid, hp, info, hi, h1, h2, h3⟩
    exact ⟨pid, hp, info, hi, ⟨h1, h2⟩, h3⟩

/-- C17: on a variant that is not connected, `FindAndConnect` returns true if and
only if, for some supported product id, some enumerated descriptor with usage
page `0xFF01` and usage `0x0002` opens; on true the matched product id is the
first supported one with such a descriptor and the handle is on the first such
descriptor of it; every `Open` made is on a descriptor with that usage page and
usage; on false the device (its matched product id included) is unchanged. -/
theorem FindAndConnect_first_opening (t : Transport) (d : EndgameGearDevice)
    (hd : EndgameGearDevice.IsConnected d = false) :
    ((d.FindAndConnect t).ret = true ↔
      ∃ pid ∈ d.variant.GetSupportedPIDs, ∃ info ∈ t.enumerate 0x3367 pid,
        info.usage_page = 0xFF01 ∧ info.usage = 0x0002 ∧ t.openOk info.path = true) ∧
    (d.FindAndConnect t).ret = (firstMatchingPID t d).isSome ∧
    (∀ pid, firstMatchingPID t d = some pid →
      (d.FindAndConnect t).dev.current_pid = pid ∧
      ∃ info, firstOpening t pid = some info ∧
        (d.FindAndConnect t).dev.device.handle = some info.path) ∧
    (∀ path ok, Event.Open path ok ∈ (d.FindAndConnect t).trace →
      ∃ pid ∈ d.variant.GetSupportedPIDs, ∃ info ∈ t.enumerate 0x3367 pid,
        info.path = path ∧ t.openOk path = ok ∧
        info.usage_page = 0xFF01 ∧ info.usage = 0x0002) ∧
    ((d.FindAndConnect t).ret = false →
      (d.FindAndConnect t).dev.current_pid = d.current_pid ∧ (d.FindAndConnect t).dev = d) := by
  have _ := hd
  obtain ⟨hsome, hnone⟩ := tryPIDs_find t d.variant.GetSupportedPIDs d
  have hret : (d.FindAndConnect t).ret = (firstMatchingPID t d).isSome := by
    cases hf : firstMatchingPID t d with
    | none => exact (hnone hf).1
    | some pid => exact (hsome pid hf).1
  refine ⟨?_, hret, fun pid hf => (hsome pid hf).2, tryPIDs_opens t _ d, fun h => ?_⟩
  · rw [hret]
    exact firstMatchingPID_isSome_iff t d
  · have e := FindAndConnect_failed t d h
    exact ⟨by rw [e], e⟩

/-- Witness for C17: of three descriptors the first has another usage page and is
not opened, the second matches and does not open, the third matches and opens. -/
theorem FindAndConnect_first_opening_witness :
    ((EndgameGearDevice.new sampleOP1W).FindAndConnect sampleMixed).ret = true ∧
      ((EndgameGearDevice.new sampleOP1W).FindAndConnect sampleMixed).dev.current_pid = 0x1970 ∧
      ((EndgameGearDevice.new sampleOP1W).FindAndConnect sampleMixed).dev.device.handle = some 3 ∧
      ((EndgameGearDevice.new sampleOP1W).FindAndConnect sampleMixed).trace =
        [Event.EnumerateDevices 0x3367 0x1970, Event.Open 2 false, Event.Open 3 true] := by
  have h := FindAndConnect_first_opening sampleMixed (EndgameGearDevice.new sampleOP1W)
    (by decide)
  exact ⟨h.1.mpr ⟨0x1970, by decide, ⟨3, 0xFF01, 0x0002⟩, by decide, rfl, rfl, rfl⟩,
    (h.2.2.1 0x1970 (by decide)).1, by decide, by decide⟩

/-! ## Product id and handle -/

/-- A successful `FindAndConnect` records one of the supported product ids. -/
theorem FindAndConnect_pid_mem (t : Transport) (d : EndgameGearDevice)
    (h : (d.FindAndConnect t).ret = true) :
    (d.FindAndConnect t).dev.current_pid ∈ d.variant.GetSupportedPIDs := by
  obtain ⟨hsome, hnone⟩ := tryPIDs_find t d.variant.GetSupportedPIDs d
  cases hf : d.variant.GetSupportedPIDs.find? (fun p => (firstOpening t p).isSome) with
  | none =>
    have := (hnone hf).1
    rw [FindAndConnect] at h
    rw [h] at this
    exact absurd this (by simp)
  | some pid =>
    have h1 := (hsome pid hf).2.1
    rw [FindAndConnect, h1]
    exact List.mem_of_find?_eq_some hf

/-- The call `ReadBattery` changes neither the handle, nor the matched product id,
nor the variant. -/
theorem ReadBattery_dev (t : Transport) (d : EndgameGearDevice) :
    (d.ReadBattery t).dev.device = d.device ∧
      (d.ReadBattery t).dev.current_pid = d.current_pid ∧
      (d.ReadBattery t).dev.variant = d.variant := by
  rw [ReadBattery_unfold]
  cases d.IsConnected <;> cases sendOk t d 0 <;> cases readOk t d 0 <;> cases sendOk t d 1 <;>
    cases readOk t d 1 <;> cases echoOk t d <;> simp

/-- One call keeps the variant, the invariant, and the matched product id among the
supported ones (or 0), when product id 0 is not supported. -/
theorem step_keeps (d : EndgameGearDevice) (act : DeviceAction)
    (hnz : 0 ∉ d.variant.GetSupportedPIDs) (hinv : d.PidMatchesHandle)
    (hmem : d.current_pid = 0 ∨ d.current_pid ∈ d.variant.GetSupportedPIDs) :
    (d.step act).variant = d.variant ∧ (d.step act).PidMatchesHandle ∧
      ((d.step act).current_pid = 0 ∨
        (d.step act).current_pid ∈ d.variant.GetSupportedPIDs) := by
  cases act with
  | FindAndConnect t =>
    refine ⟨FindAndConnect_variant t d, ?_⟩
    show (d.FindAndConnect t).dev.PidMatchesHandle ∧
      ((d.FindAndConnect t).dev.current_pid = 0 ∨
        (d.FindAndConnect t).dev.current_pid ∈ d.variant.GetSupportedPIDs)
    cases hr : (d.FindAndConnect t).ret with
    | false =>
      rw [FindAndConnect_failed t d hr]
      exact ⟨hinv, hmem⟩
    | true =>
      have hm := FindAndConnect_pid_mem t d hr
      have hc := FindAndConnect_connected t d hr
      refine ⟨?_, Or.inr hm⟩
      unfold PidMatchesHandle
      exact ⟨fun _ => hc, fun _ h0 => hnz (h0 ▸ hm)⟩
  | Disconnect =>
    refine ⟨rfl, ?_, Or.inl rfl⟩
    show d.Disconnect.PidMatchesHandle
    unfold PidMatchesHandle
    exact ⟨fun h => absurd rfl h, fun h => absurd h (by simp [Disconnect_not_connected])⟩
  | ReadBattery t =>
    obtain ⟨h1, h2, h3⟩ := ReadBattery_dev t d
    refine ⟨h3, ?_, ?_⟩
    · show (d.ReadBattery t).dev.PidMatchesHandle
      unfold PidMatchesHandle at hinv ⊢
      unfold EndgameGearDevice.IsConnected at hinv ⊢
      rw [h1, h2]
      exact hinv
    · show (d.ReadBattery t).dev.current_pid = 0 ∨
        (d.ReadBattery t).dev.current_pid ∈ d.variant.GetSupportedPIDs
      rw [h2]
      exact hmem

/-- Every sequence of calls keeps the variant, the invariant, and the matched
product id among the supported ones (or 0), when product id 0 is not supported. -/
theorem run_keeps (actions : List DeviceAction) :
    ∀ d : EndgameGearDevice, 0 ∉ d.variant.GetSupportedPIDs → d.PidMatchesHandle →
      (d.current_pid = 0 ∨ d.current_pid ∈ d.variant.GetSupportedPIDs) →
      (d.run actions).variant = d.variant ∧ (d.run actions).PidMatchesHandle ∧
        ((d.run actions).current_pid = 0 ∨
          (d.run actions).current_pid ∈ d.variant.GetSupportedPIDs) := by
  induction actions with
  | nil => intro d _ hinv hmem; exact ⟨rfl, hinv, hmem⟩
  | cons act rest ih =>
    intro d hnz hinv hmem
    obtain ⟨h1, h2, h3⟩ := step_keeps d act hnz hinv hmem
    obtain ⟨k1, k2, k3⟩ := ih (d.step act) (by rw [h1]; exact hnz) h2 (by rw [h1]; exact h3)
    rw [h1] at k1 k3
    exact ⟨k1, k2, k3⟩

/-- What holds in every state reached from construction, for a variant that does
not list product id 0: the variant is the constructed one, the matched product
id is non-zero exactly when the handle is open, and it is 0 or a supported one. -/
theorem reachable_facts (v : Variant) (actions : List DeviceAction)
    (hnz : 0 ∉ v.GetSupportedPIDs) :
    ((EndgameGearDevice.new v).run actions).variant = v ∧
      ((EndgameGearDevice.new v).run actions).PidMatchesHandle ∧
      (((EndgameGearDevice.new v).run actions).current_pid = 0 ∨
        ((EndgameGearDevice.new v).run actions).current_pid ∈ v.GetSupportedPIDs) :=
  run_keeps actions (EndgameGearDevice.new v) hnz
    ⟨fun h => absurd rfl h, fun h => absurd h (by simp [EndgameGearDevice.new,
      EndgameGearDevice.IsConnected, HIDDevice.IsOpen])⟩ (Or.inl rfl)

/-- C18: the content of the first reply is discarded. For any device (connected
or not) and any two transports that agree on the success of both sends and both
reads and on the second reply, whatever the bytes of the first reply are,
`ReadBattery` returns the same status (and leaves the same device, after the same
trace). -/
theorem ReadBattery_first_reply_discarded (t1 t2 : Transport) (d : EndgameGearDevice)
    (hs0 : sendOk t1 d 0 = sendOk t2 d 0) (hg0 : readOk t1 d 0 = readOk t2 d 0)
    (hs1 : sendOk t1 d 1 = sendOk t2 d 1) (hg1 : readOk t1 d 1 = readOk t2 d 1)
    (hreply : reply t1 d 1 = reply t2 d 1) :
    (d.ReadBattery t1).ret = (d.ReadBattery t2).ret ∧
      (d.ReadBattery t1).dev = (d.ReadBattery t2).dev ∧
      (d.ReadBattery t1).trace = (d.ReadBattery t2).trace := by
  have he : echoOk t1 d = echoOk t2 d := by simp only [echoOk, hreply]
  rw [ReadBattery_unfold t1, ReadBattery_unfold t2, hs0, hg0, hs1, hg1, he, hreply]
  exact ⟨rfl, rfl, rfl⟩

/-- Witness for C18: the first replies differ in byte 1 and in byte 16; the
status is the same. -/
theorem ReadBattery_first_reply_discarded_witness :
    sampleReply 2 99 ≠ sampleReply 1 7 ∧
      (sampleConnected.ReadBattery (sampleTransport (sampleReply 2 99) (sampleReply 8 55))).ret
        = (sampleConnected.ReadBattery (sampleTransport (sampleReply 1 7) (sampleReply 8 55))).ret :=
  ⟨by decide,
   (ReadBattery_first_reply_discarded (sampleTransport (sampleReply 2 99) (sampleReply 8 55))
    (sampleTransport (sampleReply 1 7) (sampleReply 8 55)) sampleConnected
    (by decide) (by decide) (by decide) (by decide) (by decide)).1⟩

/-- A status other than the sentinel comes from a connected device and carries the
flags computed from the matched product id. -/
theorem ReadBattery_flags (t : Transport) (d : EndgameGearDevice)
    (h : (d.ReadBattery t).ret ≠ { percentage := -1, is_charging := false, is_wireless := false }) :
    EndgameGearDevice.IsConnected d = true ∧
      (d.ReadBattery t).ret.is_charging = d.variant.IsWiredPID d.current_pid ∧
      (d.ReadBattery t).ret.is_wireless = !d.variant.IsWiredPID d.current_pid := by
  rw [ReadBattery_unfold] at h ⊢
  cases hc : d.IsConnected <;> cases hs0 : sendOk t d 0 <;> cases hg0 : readOk t d 0 <;>
    cases hs1 : sendOk t d 1 <;> cases hg1 : readOk t d 1 <;> cases he : echoOk t d <;>
    simp [hc, hs0, hg0, hs1, hg1, he, ParseBatteryResponse] at h ⊢

/-- C19: for a variant whose supported product ids are real ones (0 is not among
them), in every state reached from construction by any sequence of
`FindAndConnect`, `Disconnect` and `ReadBattery` calls, when `ReadBattery` returns a
status other than the sentinel, `is_charging` is true exactly when
`GetConnectionMode()` is "Wired (Charging)", `is_wireless` is true exactly when it is
"Wireless", and it is not "Unknown". -/
theorem GetConnectionMode_agrees_with_status (v : Variant) (actions : List DeviceAction)
    (hnz : 0 ∉ v.GetSupportedPIDs) (t : Transport) (d : EndgameGearDevice)
    (hd : d = (EndgameGearDevice.new v).run actions)
    (hvalid : (d.ReadBattery t).ret ≠
      { percentage := -1, is_charging := false, is_wireless := false }) :
    ((d.ReadBattery t).ret.is_charging = true ↔ d.GetConnectionMode = "Wired (Charging)") ∧
      ((d.ReadBattery t).ret.is_wireless = true ↔ d.GetConnectionMode = "Wireless") ∧
      d.GetConnectionMode ≠ "Unknown" := by
  obtain ⟨_, hinv, _⟩ := reachable_facts v actions hnz
  rw [← hd] at hinv
  obtain ⟨hc, h1, h2⟩ := ReadBattery_flags t d hvalid
  have hp : d.current_pid ≠ 0 := hinv.mpr hc
  rw [h1, h2]
  unfold GetConnectionMode
  rw [if_neg hp]
  cases hw : d.variant.IsWiredPID d.current_pid
  · rw [if_neg (by simp)]
    exact ⟨⟨fun h => absurd h (by simp), fun h => absurd h (by decide)⟩,
      ⟨fun _ => rfl, fun _ => rfl⟩, by decide⟩
  · rw [if_pos rfl]
    exact ⟨⟨fun _ => rfl, fun _ => rfl⟩,
      ⟨fun h => absurd h (by simp), fun h => absurd h (by decide)⟩, by decide⟩

/-- Witness for C19: a valid reading on the sample OP1W connected wirelessly. -/
theorem GetConnectionMode_agrees_with_status_witness :
    (((EndgameGearDevice.new sampleOP1W).run
        [DeviceAction.FindAndConnect (samplePlugged [0x1970])]).ReadBattery
          (samplePlugged [0x1970])).ret = { percentage := 55, is_charging := false, is_wireless := true } ∧
      ((EndgameGearDevice.new sampleOP1W).run
        [DeviceAction.FindAndConnect (samplePlugged [0x1970])]).GetConnectionMode = "Wireless" :=
  ⟨by decide,
   (GetConnectionMode_agrees_with_status sampleOP1W
      [DeviceAction.FindAndConnect (samplePlugged [0x1970])] (by decide)
      (samplePlugged [0x1970]) _ rfl (by decide)).2.1.mp (by decide)⟩

/-- C20: on a connected device whose sends and reads all succeed, the exchange of
one `ReadBattery` call is exactly send, wait 350 ms, read, wait 100 ms, send, wait
350 ms, read (800 ms of fixed wait in total); both sends carry the same 64-byte
buffer with byte 0 `0xA1`, byte 1 `0xB4` and zeros elsewhere, with size 64, and
both reads ask for report id `0xA1` with size 64. -/
theorem ReadBattery_exchange_sequence (t : Transport) (d : EndgameGearDevice)
    (hconn : EndgameGearDevice.IsConnected d = true) (hok : exchangeOk t d = true) :
    (d.ReadBattery t).trace =
        [Event.SendFeatureReport (0xA1 :: 0xB4 :: List.replicate 62 0) 64 true,
         Event.sleep_for 350,
         Event.GetFeatureReport 0xA1 64 true,
         Event.sleep_for 100,
         Event.SendFeatureReport (0xA1 :: 0xB4 :: List.replicate 62 0) 64 true,
         Event.sleep_for 350,
         Event.GetFeatureReport 0xA1 64 true] ∧
      ((d.ReadBattery t).trace.map Event.waitMs).sum = 800 ∧
      (0xA1 :: 0xB4 :: List.replicate 62 0 : List Nat).length = 64 := by
  simp only [exchangeOk, Bool.and_eq_true] at hok
  obtain ⟨⟨⟨hs0, hg0⟩, hs1⟩, hg1⟩ := hok
  have hbuf : write_buffer REPORT_ID BATTERY_CMD = 0xA1 :: 0xB4 :: List.replicate 62 0 := by
    decide
  have htrace : (d.ReadBattery t).trace =
      [Event.SendFeatureReport (0xA1 :: 0xB4 :: List.replicate 62 0) 64 true,
       Event.sleep_for 350,
       Event.GetFeatureReport 0xA1 64 true,
       Event.sleep_for 100,
       Event.SendFeatureReport (0xA1 :: 0xB4 :: List.replicate 62 0) 64 true,
       Event.sleep_for 350,
       Event.GetFeatureReport 0xA1 64 true] := by
    rw [ReadBattery_unfold, hbuf]
    cases he : echoOk t d <;> simp [hconn, hs0, hg0, hs1, hg1, he, REPORT_ID, REPORT_SIZE]
  refine ⟨htrace, ?_, by decide⟩
  rw [htrace]
  rfl

/-- Witness for C20: a valid exchange on the sample device. -/
theorem ReadBattery_exchange_sequence_witness :
    ((sampleConnected.ReadBattery (sampleTransport (sampleReply 2 99) (sampleReply 8 55))).trace.map
        Event.waitMs).sum = 800 ∧
      ((sampleConnected.ReadBattery (sampleTransport (sampleReply 2 99) (sampleReply 8 55))).trace.filter
        Event.isSend).length = 2 :=
  ⟨(ReadBattery_exchange_sequence (sampleTransport (sampleReply 2 99) (sampleReply 8 55))
      sampleConnected (by decide) (by decide)).2.1, by decide⟩

end EndgameGear
